import Mathlib

/-!
Verification development for the lox-ts tree-walking interpreter.

The definitions below are a shallow embedding of the TypeScript sources:
  * `src/frontend/lexer.ts`   — tokens and the hand-written lexer
  * `src/frontend/expr.ts` / `src/frontend/stmt.ts` (full variants) — the AST
  * the resolver (`Resolver`, full variant with classes)
  * the interpreter (`Interpreter`, full variant with classes and a
    resolution map), `values.ts` (`LoxClass`, `LoxInstance`, `LoxFunction`),
    `gobals.ts` (`LoxClockFn`, `LoxLenFn`, `LoxTypeFn`)
  * the driver `lox.ts` (diagnostics sinks `Lox.error` / `Lox.runtimeError` /
    `Lox.warn` and the file-mode pipeline).

TypeScript mutable state is passed explicitly: environments and instances
live in stores indexed by allocation order, and every evaluator function
returns its possibly-thrown exception together with the updated state (a
thrown JS exception does not roll back side effects, so the state travels
with the `Except` result).  Unbounded recursion (function calls, `while`)
is driven by an explicit fuel parameter; running out of fuel is a
distinguished outcome that no theorem below identifies with any program
behaviour.  Lox numbers are IEEE-754 doubles in the source; they are
embedded as rationals, which agrees with double arithmetic on all values
appearing in this development.
-/

namespace LoxTs

/-! ### Numbers

Lox numbers are IEEE-754 doubles.  They are embedded as exact rationals in
lowest terms (`LNum`); this agrees with double arithmetic on every numeric
value and operation appearing in this development (small integers).  The
operations are written directly over `Int`/`Nat` so that concrete programs
evaluate inside the kernel. -/

/-- An exact rational: numerator and positive denominator in lowest terms
(all constructions below normalize). -/
structure LNum where
  num : Int
  den : Nat
  deriving DecidableEq, Repr

/-- Normalize a numerator/denominator pair (denominator expected
positive). -/
def LNum.norm (n : Int) (d : Nat) : LNum :=
  let g := Nat.gcd n.natAbs d
  if g = 0 then ⟨0, 1⟩ else ⟨n / (g : Int), d / g⟩

/-- Embed an integer. -/
def LNum.ofInt (n : Int) : LNum := ⟨n, 1⟩

instance (n : Nat) : OfNat LNum n := ⟨⟨n, 1⟩⟩

def LNum.add (a b : LNum) : LNum :=
  LNum.norm (a.num * (b.den : Int) + b.num * (a.den : Int)) (a.den * b.den)

def LNum.sub (a b : LNum) : LNum :=
  LNum.norm (a.num * (b.den : Int) - b.num * (a.den : Int)) (a.den * b.den)

def LNum.mul (a b : LNum) : LNum :=
  LNum.norm (a.num * b.num) (a.den * b.den)

/-- Exact division (callers guard against a zero divisor). -/
def LNum.div (a b : LNum) : LNum :=
  LNum.norm (a.num * (b.den : Int) * (if b.num < 0 then -1 else 1))
    (a.den * b.num.natAbs)

def LNum.neg (a : LNum) : LNum := ⟨-a.num, a.den⟩

/-- Strict order by cross multiplication. -/
def LNum.ltB (a b : LNum) : Bool := a.num * (b.den : Int) < b.num * (a.den : Int)

def LNum.leB (a b : LNum) : Bool := a.num * (b.den : Int) ≤ b.num * (a.den : Int)

/-- The `right === 0` test (a normalized rational is zero iff its
numerator is). -/
def LNum.isZero (a : LNum) : Bool := a.num = 0

/-- Token kinds, from the `TokenType` enum in `lexer.ts`.  Keyword kinds are
prefixed with `kw` because several of them collide with Lean keywords. -/
inductive TT where
  | lparen | rparen | lbrace | rbrace
  | caret | colon | comma | dot | minus | plus
  | question | semicolon | slash | star
  | bang | bangEqual
  | equal | equalEqual
  | greater | greaterEqual
  | less | lessEqual
  | identifier | stringLit | numberLit
  | kwAnd | kwBreak | kwClass | kwEcho | kwElse | kwFalse
  | kwFn | kwFor | kwIf | kwLet | kwNil | kwOr | kwReturn
  | kwSuper | kwThis | kwTrue | kwWhile
  | eof
  deriving DecidableEq, Repr

/-- The `literal` payload of a token (`any` in the source: a decoded number
or string for `NUMBER`/`STRING`, otherwise `null`), doubling as the value
of a `LiteralExpr` (which can additionally hold a boolean, from the
`true`/`false` primaries). -/
inductive Lit where
  | none
  | num (q : LNum)
  | str (s : String)
  | bool (b : Bool)
  deriving DecidableEq, Repr

/-- `Token` from `lexer.ts`: `(type, lexeme, literal, line, column)`. -/
structure Token where
  type : TT
  lexeme : String
  literal : Lit
  line : Nat
  column : Nat
  deriving DecidableEq, Repr

/-- Convenience constructor for tokens appearing in hand-embedded ASTs. -/
def mkTok (t : TT) (lexeme : String) (line : Nat) : Token :=
  ⟨t, lexeme, Lit.none, line, 0⟩

mutual
/-- Expression AST, from `expr.ts` (full variant).  Each node that the
resolver may resolve (`AssignExpr`, `VariableExpr`, `ThisExpr`, `SuperExpr`)
carries a numeric identity `id`: the source keys the resolution map on
JavaScript object identity, which the embedding renders as an explicit id
(distinct per node in any embedded program). -/
inductive Expr where
  | assignE (id : Nat) (name : Token) (value : Expr)
  | binaryE (left : Expr) (operator : Token) (right : Expr)
  | callE (callee : Expr) (paren : Token) (args : List Expr)
  | conditionalE (condition thenBranch elseBranch : Expr)
  | fnE (params : List Token) (body : List Stmt)
  | getE (object : Expr) (name : Token)
  | groupingE (expression : Expr)
  | literalE (value : Lit)
  | logicalE (left : Expr) (operator : Token) (right : Expr)
  | setE (object : Expr) (name : Token) (value : Expr)
  | unaryE (operator : Token) (right : Expr)
  | varE (id : Nat) (name : Token)
  | thisE (id : Nat) (keyword : Token)
  | superE (id : Nat) (keyword : Token) (method : Token)

/-- Statement AST, from `stmt.ts` (full variant).  A `FunctionStmt` is a
name together with a `FunctionExpr` (params, body); `ClassStmt` stores the
optional superclass as a `VariableExpr` (id, name token) and a list of
`FunctionStmt` methods. -/
inductive Stmt where
  | blockS (statements : List Stmt)
  | breakS (keyword : Token)
  | classS (name : Token) (superclass : Option (Nat × Token))
      (methods : List (Token × List Token × List Stmt))
  | echoS (expression : Expr)
  | exprS (expression : Expr)
  | functionS (name : Token) (params : List Token) (body : List Stmt)
  | ifS (condition : Expr) (thenBranch : Stmt) (elseBranch : Option Stmt)
  | letS (name : Token) (initializer : Option Expr)
  | returnS (keyword : Token) (value : Option Expr)
  | whileS (condition : Expr) (body : Stmt)
end

/-- Association-list lookup, the embedding of `Map.get` /`Map.has`. -/
def lookupA {V : Type} (l : List (String × V)) (k : String) : Option V :=
  match l with
  | [] => Option.none
  | (k₀, v₀) :: rest => if k₀ = k then some v₀ else lookupA rest k

/-- Association-list update, the embedding of `Map.set`: overwrite the
binding in place if the key exists, otherwise append (JS maps preserve
insertion order). -/
def insertA {V : Type} (l : List (String × V)) (k : String) (v : V) :
    List (String × V) :=
  match l with
  | [] => [(k, v)]
  | (k₀, v₀) :: rest =>
    if k₀ = k then (k₀, v) :: rest else (k₀, v₀) :: insertA rest k v

/-- Native functions installed in the globals (`gobals.ts`). -/
inductive NativeTag where
  | clock | len | type
  deriving DecidableEq, Repr

/-- Runtime data of a `LoxFunction` (`values.ts`): optional name, the
`FunctionExpr` declaration (params, body), the captured closure environment
(an id into the environment store), and the `isInitializer` flag. -/
structure FnData where
  name : Option String
  params : List Token
  body : List Stmt
  closure : Nat
  isInitializer : Bool

/-- Runtime data of a `LoxClass` (`values.ts`): name, optional superclass,
method map.  Class values are acyclic by construction (a superclass value is
fully built before the class referring to it), so the superclass is embedded
by value. -/
inductive ClassData where
  | mk (name : String) (superclass : Option ClassData)
      (methods : List (String × FnData))

def ClassData.cname : ClassData → String
  | .mk n _ _ => n

def ClassData.csuper : ClassData → Option ClassData
  | .mk _ s _ => s

def ClassData.cmethods : ClassData → List (String × FnData)
  | .mk _ _ m => m

/-- The runtime value universe `LoxObject` from `values.ts`
(`LoxClass | LoxInstance | LoxCallable | string | number | boolean | null`).
Instances are mutable, so an instance value is an id into the instance
store.  `undefinedV` is the host's `undefined`: it is not a Lox value in the
source's type, but JavaScript execution produces it (a `Map.get` miss, or
the missing `return` in `GetExpr.accept`), so the embedding carries it. -/
inductive LoxValue where
  | nil
  | boolean (b : Bool)
  | num (q : LNum)
  | str (s : String)
  | fnV (f : FnData)
  | classV (c : ClassData)
  | instV (id : Nat)
  | nativeV (tag : NativeTag)
  | undefinedV

/-- An environment frame: the `values` map of one `Environment` plus its
`enclosing` pointer (an id into the environment store, or none for the
root). -/
structure Frame where
  values : List (String × LoxValue)
  enclosing : Option Nat

/-- Runtime data of a `LoxInstance` (`values.ts`): backing class and the
mutable field map. -/
structure InstData where
  klass : ClassData
  fields : List (String × LoxValue)

/-- Exceptions thrown by the interpreter.  `rte` is `RuntimeError`
(`lib/errors.ts`), `brk` is the `Break` control-flow exception, `ret` is
`LoxFunction.Return`, and `hostErr` is any other host-level JavaScript
exception (a plain `Error` such as the one `LoxLenFn` throws, or a
`TypeError` raised by the host when `undefined` is dereferenced).
`fuelOut` is an artefact of the fuel-driven embedding only. -/
inductive Exc where
  | rte (token : Token) (message : String)
  | brk (token : Token) (message : String)
  | ret (value : LoxValue)
  | hostErr (message : String)
  | fuelOut

/-- Interpreter-plus-driver state: the environment store (frame 0 is the
globals), the instance store, the interpreter's current-environment pointer,
the resolution map `locals` (expression id ↦ depth), the console output, the
driver's `hadError` / `hadRuntimeError` flags, and the REPL option. -/
structure LoxState where
  envs : List Frame
  insts : List InstData
  environment : Nat
  locals : List (Nat × Nat)
  out : List String
  hadError : Bool
  hadRuntimeError : Bool
  repl : Bool

/-- Read a frame from the environment store. -/
def LoxState.frame (st : LoxState) (i : Nat) : Option Frame :=
  st.envs[i]?

/-- Replace a frame in the environment store. -/
def LoxState.setFrame (st : LoxState) (i : Nat) (f : Frame) : LoxState :=
  { st with envs := st.envs.set i f }

/-- Allocate a fresh environment frame; its id is the store length. -/
def LoxState.allocEnv (st : LoxState) (f : Frame) : Nat × LoxState :=
  (st.envs.length, { st with envs := st.envs ++ [f] })

/-- Allocate a fresh instance; its id is the store length. -/
def LoxState.allocInst (st : LoxState) (d : InstData) : Nat × LoxState :=
  (st.insts.length, { st with insts := st.insts ++ [d] })

/-- `console.log` of one line. -/
def LoxState.log (st : LoxState) (s : String) : LoxState :=
  { st with out := st.out ++ [s] }

/-! ## Environment operations

`environment.ts` under `src/` contains only the single-scope variant of
`Environment` (`define`, plus `get`/`assign` that fail with
`Undefined variable '<name>'.` when this scope lacks the name).  The chained
variant that the interpreter and `values.ts` call — constructor taking an
`enclosing` environment, outward-walking `get`/`assign`, `ancestor`,
`getAt`/`assignAt`, `getThis` — is not under `src/`; those operations are
modelled from the spec (§4.4, §4.5) on top of the frame store. -/

/-- `Environment.define` (from `environment.ts`): unconditionally write the
binding in this scope. -/
def envDefine (st : LoxState) (i : Nat) (name : String) (v : LoxValue) :
    LoxState :=
  match st.frame i with
  | Option.none => st
  | some f => st.setFrame i { f with values := insertA f.values name v }

/-- Modelled from the spec: `Environment.get` walks outward — "Look up in
this scope; else recurse into enclosing; else fail `UndefinedVariable`."
The in-scope lookup and the error message are those of the `get` in
`environment.ts`.  The fuel bounds the chain walk; any fuel larger than the
frame id suffices for a well-formed store. -/
def envGet (st : LoxState) : Nat → Nat → Token → Except Exc LoxValue
  | 0, _, _ => .error (.hostErr "environment chain fuel exhausted")
  | fuel + 1, i, name =>
    match st.frame i with
    | Option.none => .error (.hostErr "dangling environment id")
    | some f =>
      match lookupA f.values name.lexeme with
      | some v => .ok v
      | Option.none =>
        match f.enclosing with
        | some j => envGet st fuel j name
        | Option.none =>
          .error (.rte name ("Undefined variable '" ++ name.lexeme ++ "'."))

/-- Modelled from the spec: `Environment.assign` — "Like `get` but
overwrites; fails `UndefinedVariable` if nothing found." -/
def envAssign (st : LoxState) : Nat → Nat → Token → LoxValue →
    Except Exc Unit × LoxState
  | 0, _, _, _ => (.error (.hostErr "environment chain fuel exhausted"), st)
  | fuel + 1, i, name, v =>
    match st.frame i with
    | Option.none => (.error (.hostErr "dangling environment id"), st)
    | some f =>
      match lookupA f.values name.lexeme with
      | some _ =>
        (.ok (), st.setFrame i { f with values := insertA f.values name.lexeme v })
      | Option.none =>
        match f.enclosing with
        | some j => envAssign st fuel j name v
        | Option.none =>
          (.error (.rte name ("Undefined variable '" ++ name.lexeme ++ "'.")), st)

/-- Modelled from the spec: `Environment.ancestor(d)` — "Walk `enclosing`
`d` times; panic on underrun."  Underrun is rendered as `none`. -/
def envAncestor (st : LoxState) : Nat → Nat → Option Nat
  | i, 0 => some i
  | i, d + 1 =>
    match st.frame i with
    | Option.none => Option.none
    | some f =>
      match f.enclosing with
      | some j => envAncestor st j d
      | Option.none => Option.none

/-- Modelled from the spec: `Environment.get_at(d, name)` — "Same as `get`
but restricted to `ancestor(d)`'s local map — no walking."  On a local-map
miss (which the spec's invariant claims cannot happen) a TS `Map.get`
returns the host's `undefined`; the model renders exactly that. -/
def envGetAt (st : LoxState) (i d : Nat) (name : String) : LoxValue :=
  match envAncestor st i d with
  | Option.none => .undefinedV
  | some j =>
    match st.frame j with
    | Option.none => .undefinedV
    | some f =>
      match lookupA f.values name with
      | some v => v
      | Option.none => .undefinedV

/-- Modelled from the spec: `Environment.assign_at(d, name, value)` writes
into `ancestor(d)`'s local map without walking. -/
def envAssignAt (st : LoxState) (i d : Nat) (name : String) (v : LoxValue) :
    LoxState :=
  match envAncestor st i d with
  | Option.none => st
  | some j =>
    match st.frame j with
    | Option.none => st
    | some f => st.setFrame j { f with values := insertA f.values name v }

/-- Modelled from the spec: `Environment.getThis` used by
`LoxFunction.call` for initializers — "the `this` bound in the closure"
(a bound method's closure defines `this` in its innermost scope). -/
def envGetThis (st : LoxState) (fuel i : Nat) : LoxValue :=
  match envGet st fuel i (mkTok .kwThis "this" 0) with
  | .ok v => v
  | .error _ => .undefinedV

/-! ## Pure runtime helpers (`values.ts`, `gobals.ts`, interpreter UTIL) -/

/-- `LoxClass.findMethod`: own method map first, then the superclass
chain, else absent. -/
def findMethod : ClassData → String → Option FnData
  | .mk _ sup methods, name =>
    match lookupA methods name with
    | some f => some f
    | Option.none =>
      match sup with
      | some c => findMethod c name
      | Option.none => Option.none

/-- `LoxClass.arity`: the `init` method's arity, or 0 when there is none. -/
def classArity (c : ClassData) : Nat :=
  match findMethod c "init" with
  | Option.none => 0
  | some f => f.params.length

/-- `LoxFunction.bind`: a new function whose closure is a fresh scope
enclosing the original closure and defining `this` to the instance. -/
def bindFn (st : LoxState) (f : FnData) (instId : Nat) : FnData × LoxState :=
  let (envId, st') :=
    st.allocEnv { values := [("this", LoxValue.instV instId)], enclosing := some f.closure }
  ({ f with closure := envId }, st')

/-- Arity of any callable value, dispatching like the abstract
`LoxCallable.arity` (`clock` 0, `len` 1, `type` 1 from `gobals.ts`). -/
def callableArity : LoxValue → Nat
  | .fnV f => f.params.length
  | .classV c => classArity c
  | .nativeV .clock => 0
  | .nativeV .len => 1
  | .nativeV .type => 1
  | _ => 0

/-- `typeof` on the embedded value universe (only the cases `LoxTypeFn`
can reach: primitives and `undefined`). -/
def jsTypeof : LoxValue → String
  | .num _ => "number"
  | .str _ => "string"
  | .boolean _ => "boolean"
  | .undefinedV => "undefined"
  | _ => "object"

/-- `LoxTypeFn.call` (`gobals.ts`, class-aware variant): `nil` for null,
`class`/`function` for callables, `object` for instances, otherwise the
host's `typeof` tag. -/
def typeNative (v : LoxValue) : LoxValue :=
  match v with
  | .nil => .str "nil"
  | .fnV _ => .str "function"
  | .nativeV _ => .str "function"
  | .classV _ => .str "class"
  | .instV _ => .str "object"
  | _ => .str (jsTypeof v)

/-- `LoxLenFn.call` (`gobals.ts`): the argument's character count when it
is a string, otherwise `throw new Error("'len()' expects a string")` — a
plain host `Error`, not a `RuntimeError`. -/
def lenNative (v : LoxValue) : Except Exc LoxValue :=
  match v with
  | .str s => .ok (.num (LNum.ofInt s.length))
  | _ => .error (.hostErr "'len()' expects a string")

/-- Rendering of a number value.  JS prints integral doubles without a
decimal point; non-integral doubles use the host's shortest-round-trip
decimal form, which the embedding does not reproduce (no claim depends on
it) and renders as `num/den`. -/
def numToString (q : LNum) : String :=
  if q.den = 1 then toString q.num
  else toString q.num ++ "/" ++ toString q.den

/-- `toString()` of a runtime value, per `values.ts` (`'<fn>'`,
`'<fn NAME>'`, the class name, `'CLASS' instance`) and `'<native fn>'`
from `gobals.ts`.  Calling it on the host's `undefined` throws a
`TypeError`, which is what the host does on `undefined.toString()`. -/
def valueToString (st : LoxState) : LoxValue → Except Exc String
  | .boolean b => .ok (if b then "true" else "false")
  | .str s => .ok s
  | .num q => .ok (numToString q)
  | .fnV f =>
    .ok (match f.name with
         | Option.none => "<fn>"
         | some n => "<fn " ++ n ++ ">")
  | .classV c => .ok c.cname
  | .instV i =>
    match st.insts[i]? with
    | some d => .ok ("'" ++ d.klass.cname ++ "' instance")
    | Option.none => .error (.hostErr "dangling instance id")
  | .nativeV _ => .ok "<native fn>"
  | .nil => .error (.hostErr "TypeError: null has no toString")
  | .undefinedV =>
    .error (.hostErr "TypeError: Cannot read properties of undefined (reading 'toString')")

/-- `Interpreter.stringify`: `nil` for null, number text with a trailing
`.0` stripped, otherwise `object.toString()`. -/
def stringify (st : LoxState) (v : LoxValue) : Except Exc String :=
  match v with
  | .nil => .ok "nil"
  | .num q =>
    let text := numToString q
    .ok (if text.endsWith ".0" then text.dropRight 2 else text)
  | _ => valueToString st v

/-- `Interpreter.isTruthy`: only `nil` and `false` are falsey (the host's
`undefined` falls through to the truthy default). -/
def isTruthy : LoxValue → Bool
  | .nil => false
  | .boolean b => b
  | _ => true

/-- `Interpreter.isEqual`: `nil` only equals `nil`; otherwise the host's
strict equality — structural on primitives, reference identity on
instances (instance ids).  Function and class values are compared
structurally here, standing in for reference identity (no claim below
compares them). -/
def isEqual : LoxValue → LoxValue → Bool
  | .nil, .nil => true
  | .nil, _ => false
  | _, .nil => false
  | .boolean a, .boolean b => a = b
  | .num a, .num b => a = b
  | .str a, .str b => a = b
  | .instV a, .instV b => a = b
  | .undefinedV, .undefinedV => true
  | _, _ => false

/-- `LoxInstance.get` (`values.ts`): fields first, then method lookup
returning the bound method, else the
`'<class>' has no property '<name>'.` runtime error.  Binding allocates a
fresh environment, hence the state result. -/
def instanceGet (st : LoxState) (instId : Nat) (name : Token) :
    Except Exc LoxValue × LoxState :=
  match st.insts[instId]? with
  | Option.none => (.error (.hostErr "dangling instance id"), st)
  | some d =>
    match lookupA d.fields name.lexeme with
    | some v => (.ok v, st)
    | Option.none =>
      match findMethod d.klass name.lexeme with
      | some m =>
        let (bound, st') := bindFn st m instId
        (.ok (.fnV bound), st')
      | Option.none =>
        (.error (.rte name
          ("'" ++ d.klass.cname ++ "' has no property '" ++ name.lexeme ++ "'.")), st)

/-- `LoxInstance.set`: always installs in the field map. -/
def instanceSet (st : LoxState) (instId : Nat) (name : String) (v : LoxValue) :
    LoxState :=
  match st.insts[instId]? with
  | Option.none => st
  | some d =>
    { st with insts := st.insts.set instId { d with fields := insertA d.fields name v } }

/-- `Interpreter.checkNumberOperands`: both operands must be numbers, else
the `Operands must be numbers.` runtime error; on success the two numeric
casts are returned. -/
def checkNumberOperands (operator : Token) (l r : LoxValue) :
    Except Exc (LNum × LNum) :=
  match l, r with
  | .num a, .num b => .ok (a, b)
  | _, _ => .error (.rte operator "Operands must be numbers.")

/-- `typeof v === 'string'`. -/
def LoxValue.isStr : LoxValue → Bool
  | .str _ => true
  | _ => false

/-- The operator switch of `Interpreter.visitBinaryExpr` (class-aware
variant), applied after both operands have been evaluated.  `+` adds two
numbers; otherwise, when at least one operand is a string, both are
stringified and concatenated; otherwise it raises
`Operands must be two numbers or two strings` (no trailing period in the
source message).  `/` raises `Division by zero is not allowed.` when the
right operand is 0.  The final `return null` for an operator outside the
switch is rendered as `nil`. -/
def applyBinary (st : LoxState) (operator : Token) (l r : LoxValue) :
    Except Exc LoxValue :=
  match operator.type with
  | .bangEqual => .ok (.boolean (!(isEqual l r)))
  | .equalEqual => .ok (.boolean (isEqual l r))
  | .greater =>
    (checkNumberOperands operator l r).map fun p => .boolean (LNum.ltB p.2 p.1)
  | .greaterEqual =>
    (checkNumberOperands operator l r).map fun p => .boolean (LNum.leB p.2 p.1)
  | .less =>
    (checkNumberOperands operator l r).map fun p => .boolean (LNum.ltB p.1 p.2)
  | .lessEqual =>
    (checkNumberOperands operator l r).map fun p => .boolean (LNum.leB p.1 p.2)
  | .minus =>
    (checkNumberOperands operator l r).map fun p => .num (LNum.sub p.1 p.2)
  | .plus =>
    match l, r with
    | .num a, .num b => .ok (.num (LNum.add a b))
    | _, _ =>
      if l.isStr || r.isStr then
        (stringify st l).bind fun a =>
          (stringify st r).map fun b => .str (a ++ b)
      else
        .error (.rte operator "Operands must be two numbers or two strings")
  | .slash =>
    (checkNumberOperands operator l r).bind fun p =>
      if p.2.isZero then .error (.rte operator "Division by zero is not allowed.")
      else .ok (.num (LNum.div p.1 p.2))
  | .star =>
    (checkNumberOperands operator l r).map fun p => .num (LNum.mul p.1 p.2)
  | _ => .ok .nil

/-- The operator switch of `Interpreter.visitUnaryExpr`. -/
def applyUnary (operator : Token) (v : LoxValue) : Except Exc LoxValue :=
  match operator.type with
  | .bang => .ok (.boolean (!(isTruthy v)))
  | .minus =>
    match v with
    | .num q => .ok (.num q.neg)
    | _ => .error (.rte operator "Operand must be a number.")
  | _ => .ok .nil

/-- The resolution-map lookup `this.locals.get(expr)` keyed on expression
identity. -/
def lookupNat (l : List (Nat × Nat)) (k : Nat) : Option Nat :=
  match l with
  | [] => Option.none
  | (k₀, v₀) :: rest => if k₀ = k then some v₀ else lookupNat rest k

/-- `interpreter.resolve(expr, depth)`: record the depth in the resolution
map. -/
def resolveAt (l : List (Nat × Nat)) (k d : Nat) : List (Nat × Nat) :=
  match l with
  | [] => [(k, d)]
  | (k₀, v₀) :: rest =>
    if k₀ = k then (k₀, d) :: rest else (k₀, v₀) :: resolveAt rest k d

/-- The value of a `LiteralExpr` (a number, string, boolean, or null). -/
def litToValue : Lit → LoxValue
  | .none => .nil
  | .num q => .num q
  | .str s => .str s
  | .bool b => .boolean b

/-- Sufficient fuel for walking any enclosing chain of a store in which
each frame's `enclosing` id is smaller than its own id (which holds for
every store this development builds: frames only point at previously
allocated frames). -/
def chainFuel (st : LoxState) : Nat :=
  st.envs.length + 1

/-- `Interpreter.lookUpVariable`: a resolution-map hit uses
`environment.getAt(distance, name)`, a miss falls back to
`globals.get(name)` (the globals are frame 0). -/
def lookUpVariable (st : LoxState) (id : Nat) (name : Token) :
    Except Exc LoxValue :=
  match lookupNat st.locals id with
  | Option.none => envGet st (chainFuel st) 0 name
  | some d => .ok (envGetAt st st.environment d name.lexeme)

/-- Parameter binding from `LoxFunction.call`: define each parameter to the
corresponding argument in a fresh map (`args[i]` beyond the argument list
is the host's `undefined`; the arity check prevents that for real calls). -/
def paramFrame : List Token → List LoxValue → List (String × LoxValue) →
    List (String × LoxValue)
  | [], _, acc => acc
  | p :: ps, vs, acc => paramFrame ps vs.tail (insertA acc p.lexeme (vs.headD .undefinedV))

/-- The environment set-up of `LoxFunction.call`: a fresh environment
enclosing the function's closure, with the parameters bound. -/
def fnCallSetup (st : LoxState) (f : FnData) (args : List LoxValue) :
    Nat × LoxState :=
  st.allocEnv { values := paramFrame f.params args [], enclosing := some f.closure }

/-- Whether a value satisfies `instanceof LoxCallable` (user functions,
classes, and native functions extend `LoxCallable`; instances and
primitives do not). -/
def isCallable : LoxValue → Bool
  | .fnV _ => true
  | .classV _ => true
  | .nativeV _ => true
  | _ => false

/-! ## The tree-walking evaluator

A faithful translation of the visitor methods of the class-aware
`Interpreter`, of `LoxFunction.call` / `LoxClass.call` from `values.ts`,
and of the native calls from `gobals.ts`.  Every mutual recursion consumes
one unit of fuel, so termination is structural on the fuel. -/

/-- The remainder of `visitClassStmt` after the superclass check. -/
def execClassBody (name : Token) (superclass : Option ClassData)
    (methods : List (Token × List Token × List Stmt)) (st : LoxState) :
    Except Exc Unit × LoxState :=
  let st₁ := envDefine st st.environment name.lexeme .nil
  let (st₂ : LoxState) :=
    match superclass with
    | some sc =>
      let (envId, stA) :=
        st₁.allocEnv { values := [("super", LoxValue.classV sc)],
                       enclosing := some st₁.environment }
      { stA with environment := envId }
    | Option.none => st₁
  let methodMap : List (String × FnData) :=
    methods.foldl
      (fun acc m =>
        insertA acc m.1.lexeme
          ⟨some m.1.lexeme, m.2.1, m.2.2, st₂.environment,
           m.1.lexeme = "init"⟩)
      []
  let klass : ClassData := .mk name.lexeme superclass methodMap
  let (st₃ : LoxState) :=
    match superclass with
    | some _ =>
      match st₂.frame st₂.environment with
      | some f =>
        match f.enclosing with
        | some j => { st₂ with environment := j }
        | Option.none => st₂
      | Option.none => st₂
    | Option.none => st₂
  match envAssign st₃ (chainFuel st₃) st₃.environment name (.classV klass) with
  | (.ok _, st₄) => (.ok (), st₄)
  | (.error err, st₄) => (.error err, st₄)

/-! ## The tree-walking evaluator

A faithful translation of the visitor methods of the class-aware
`Interpreter`, of `LoxFunction.call` / `LoxClass.call` from `values.ts`,
and of the native calls from `gobals.ts`.

The source's mutually recursive methods are tied together through a single
fuel-indexed fixpoint: `Job` is the sum of their argument packs, `RVal`
the sum of their result types, `interpStep` performs one dispatch given a
continuation for the recursive calls, and `interpGo` iterates it by
primitive recursion on the fuel (`Nat.rec`, so concrete runs reduce inside
the kernel).  The named wrappers below (`evalExpr`, `execStmt`,
`executeBlock` as `execBlockIn`, ...) recover the source's methods. -/

/-- The result of a `Job`: a statement produces nothing, an expression a
value, an argument list a list of values. -/
inductive RVal where
  | unitV
  | valV (v : LoxValue)
  | valsV (vs : List LoxValue)

/-- One evaluator outcome: the (possibly thrown) result plus the state. -/
abbrev EvalOut := Except Exc RVal × LoxState

/-- The argument pack of each mutually recursive evaluator function. -/
inductive Job where
  | exprJ (e : Expr)
  | argsJ (es : List Expr)
  | stmtJ (s : Stmt)
  | stmtsJ (ss : List Stmt)
  | blockJ (ss : List Stmt) (envId : Nat)
  | whileJ (condition : Expr) (body : Stmt)
  | callJ (callee : LoxValue) (args : List LoxValue)
  | fnCallJ (f : FnData) (args : List LoxValue)
  | classCallJ (c : ClassData) (args : List LoxValue)
  | classJ (name : Token) (superclass : Option (Nat × Token))
      (methods : List (Token × List Token × List Stmt))

/-- Project a job outcome to an expression result. -/
def projVal : EvalOut → Except Exc LoxValue × LoxState
  | (.ok (.valV v), st) => (.ok v, st)
  | (.ok _, st) => (.error (.hostErr "internal: job kind mismatch"), st)
  | (.error err, st) => (.error err, st)

/-- Project a job outcome to a statement result. -/
def projUnit : EvalOut → Except Exc Unit × LoxState
  | (.ok _, st) => (.ok (), st)
  | (.error err, st) => (.error err, st)

/-- Project a job outcome to an argument-list result. -/
def projVals : EvalOut → Except Exc (List LoxValue) × LoxState
  | (.ok (.valsV vs), st) => (.ok vs, st)
  | (.ok _, st) => (.error (.hostErr "internal: job kind mismatch"), st)
  | (.error err, st) => (.error err, st)

/-- Wrap an expression result as a job outcome. -/
def wrapV (p : Except Exc LoxValue × LoxState) : EvalOut :=
  (p.1.map RVal.valV, p.2)

/-- Wrap a statement result as a job outcome. -/
def wrapU (p : Except Exc Unit × LoxState) : EvalOut :=
  (p.1.map fun _ => RVal.unitV, p.2)

/-- Wrap an argument-list result as a job outcome. -/
def wrapVs (p : Except Exc (List LoxValue) × LoxState) : EvalOut :=
  (p.1.map RVal.valsV, p.2)

/-- `Interpreter.evaluate` / the expression visitor methods, one dispatch
deep; `recur` stands for every mutually recursive call.  The `getE` case
renders `GetExpr.accept` from `expr.ts`, which lacks a `return` in front of
`visitor.visitGetExpr(this)`: the visitor runs (side effects and thrown
errors included) but its value is dropped and the host's `undefined` is
produced instead. -/
def stepExpr (recur : Job → LoxState → EvalOut) (e : Expr) (st : LoxState) :
    Except Exc LoxValue × LoxState :=
  let evalE := fun (e : Expr) (st : LoxState) => projVal (recur (.exprJ e) st)
  match e with
  | .assignE id name value =>
    match evalE value st with
    | (.error err, st₁) => (.error err, st₁)
    | (.ok v, st₁) =>
      match lookupNat st₁.locals id with
      | some d => (.ok v, envAssignAt st₁ st₁.environment d name.lexeme v)
      | Option.none =>
        match envAssign st₁ (chainFuel st₁) 0 name v with
        | (.ok _, st₂) => (.ok v, st₂)
        | (.error err, st₂) => (.error err, st₂)
  | .binaryE left operator right =>
    match evalE left st with
    | (.error err, st₁) => (.error err, st₁)
    | (.ok l, st₁) =>
      match evalE right st₁ with
      | (.error err, st₂) => (.error err, st₂)
      | (.ok r, st₂) => (applyBinary st₂ operator l r, st₂)
  | .callE callee paren args =>
    match evalE callee st with
    | (.error err, st₁) => (.error err, st₁)
    | (.ok c, st₁) =>
      match projVals (recur (.argsJ args) st₁) with
      | (.error err, st₂) => (.error err, st₂)
      | (.ok vs, st₂) =>
        if !(isCallable c) then
          (.error (.rte paren "Can only call functions and classes."), st₂)
        else if vs.length ≠ callableArity c then
          (.error (.rte paren
            ("Expected " ++ toString (callableArity c) ++
             " arguments but got " ++ toString vs.length ++ ".")), st₂)
        else
          projVal (recur (.callJ c vs) st₂)
  | .conditionalE condition thenBranch elseBranch =>
    match evalE condition st with
    | (.error err, st₁) => (.error err, st₁)
    | (.ok c, st₁) =>
      if isTruthy c then evalE thenBranch st₁
      else evalE elseBranch st₁
  | .fnE params body =>
    (.ok (.fnV ⟨Option.none, params, body, st.environment, false⟩), st)
  | .getE object name =>
    match evalE object st with
    | (.error err, st₁) => (.error err, st₁)
    | (.ok o, st₁) =>
      match o with
      | .instV i =>
        match instanceGet st₁ i name with
        | (.ok _, st₂) => (.ok .undefinedV, st₂)
        | (.error err, st₂) => (.error err, st₂)
      | _ => (.error (.rte name "Only instances have properties."), st₁)
  | .groupingE inner => evalE inner st
  | .literalE v => (.ok (litToValue v), st)
  | .logicalE left operator right =>
    match evalE left st with
    | (.error err, st₁) => (.error err, st₁)
    | (.ok l, st₁) =>
      if operator.type = TT.kwOr then
        if isTruthy l then (.ok l, st₁) else evalE right st₁
      else
        if !(isTruthy l) then (.ok l, st₁) else evalE right st₁
  | .setE object name value =>
    match evalE object st with
    | (.error err, st₁) => (.error err, st₁)
    | (.ok o, st₁) =>
      match o with
      | .instV i =>
        match evalE value st₁ with
        | (.error err, st₂) => (.error err, st₂)
        | (.ok v, st₂) => (.ok v, instanceSet st₂ i name.lexeme v)
      | _ => (.error (.rte name "Only instances have fields."), st₁)
  | .unaryE operator right =>
    match evalE right st with
    | (.error err, st₁) => (.error err, st₁)
    | (.ok v, st₁) => (applyUnary operator v, st₁)
  | .varE id name => (lookUpVariable st id name, st)
  | .thisE id keyword => (lookUpVariable st id keyword, st)
  | .superE id _keyword method =>
    match lookupNat st.locals id with
    | Option.none => (.error (.hostErr "unresolved super reference"), st)
    | some d =>
      match envGetAt st st.environment d "super" with
      | .classV c =>
        match findMethod c method.lexeme with
        | Option.none =>
          (.error (.rte method
            ("Undefined property '" ++ method.lexeme ++ "'.")), st)
        | some m =>
          match envGetAt st st.environment (d - 1) "this" with
          | .instV i =>
            let (bound, st₁) := bindFn st m i
            (.ok (.fnV bound), st₁)
          | _ => (.error (.hostErr "super dispatch: this is not an instance"), st)
      | _ => (.error (.hostErr "super dispatch: not a class"), st)

/-- Left-to-right evaluation of a call's argument list
(`expr.args.map((arg) => this.evaluate(arg))`). -/
def stepArgs (recur : Job → LoxState → EvalOut) (es : List Expr)
    (st : LoxState) : Except Exc (List LoxValue) × LoxState :=
  match es with
  | [] => (.ok [], st)
  | e :: rest =>
    match projVal (recur (.exprJ e) st) with
    | (.error err, st₁) => (.error err, st₁)
    | (.ok v, st₁) =>
      match projVals (recur (.argsJ rest) st₁) with
      | (.error err, st₂) => (.error err, st₂)
      | (.ok vs, st₂) => (.ok (v :: vs), st₂)

/-- `Interpreter.execute` / the statement visitor methods, one dispatch
deep. -/
def stepStmt (recur : Job → LoxState → EvalOut) (s : Stmt) (st : LoxState) :
    Except Exc Unit × LoxState :=
  let evalE := fun (e : Expr) (st : LoxState) => projVal (recur (.exprJ e) st)
  match s with
  | .blockS statements =>
    let (envId, st₁) :=
      st.allocEnv { values := [], enclosing := some st.environment }
    projUnit (recur (.blockJ statements envId) st₁)
  | .breakS keyword =>
    (.error (.brk keyword "Break statement used outside of loop."), st)
  | .classS name superclass methods =>
    projUnit (recur (.classJ name superclass methods) st)
  | .echoS expression =>
    match evalE expression st with
    | (.error err, st₁) => (.error err, st₁)
    | (.ok v, st₁) =>
      match stringify st₁ v with
      | .ok text => (.ok (), st₁.log text)
      | .error err => (.error err, st₁)
  | .exprS expression =>
    match evalE expression st with
    | (.error err, st₁) => (.error err, st₁)
    | (.ok v, st₁) =>
      if st₁.repl then
        match stringify st₁ v with
        | .ok text => (.ok (), st₁.log text)
        | .error err => (.error err, st₁)
      else (.ok (), st₁)
  | .functionS name params body =>
    (.ok (), envDefine st st.environment name.lexeme
      (.fnV ⟨some name.lexeme, params, body, st.environment, false⟩))
  | .ifS condition thenBranch elseBranch =>
    match evalE condition st with
    | (.error err, st₁) => (.error err, st₁)
    | (.ok c, st₁) =>
      if isTruthy c then projUnit (recur (.stmtJ thenBranch) st₁)
      else
        match elseBranch with
        | some eb => projUnit (recur (.stmtJ eb) st₁)
        | Option.none => (.ok (), st₁)
  | .letS name initializer =>
    match initializer with
    | some e =>
      match evalE e st with
      | (.error err, st₁) => (.error err, st₁)
      | (.ok v, st₁) => (.ok (), envDefine st₁ st₁.environment name.lexeme v)
    | Option.none =>
      (.ok (), envDefine st st.environment name.lexeme .nil)
  | .returnS _keyword value =>
    match value with
    | some e =>
      match evalE e st with
      | (.error err, st₁) => (.error err, st₁)
      | (.ok v, st₁) => (.error (.ret v), st₁)
    | Option.none => (.error (.ret .nil), st)
  | .whileS condition body => projUnit (recur (.whileJ condition body) st)

/-- The statement loop shared by `interpret` bodies and blocks. -/
def stepStmts (recur : Job → LoxState → EvalOut) (ss : List Stmt)
    (st : LoxState) : Except Exc Unit × LoxState :=
  match ss with
  | [] => (.ok (), st)
  | s :: rest =>
    match projUnit (recur (.stmtJ s) st) with
    | (.error err, st₁) => (.error err, st₁)
    | (.ok _, st₁) => projUnit (recur (.stmtsJ rest) st₁)

/-- `Interpreter.executeBlock`: remember the previous environment pointer,
switch to the block's environment, run the statements, and restore the
previous pointer on every exit path (the `finally` clause). -/
def stepBlock (recur : Job → LoxState → EvalOut) (statements : List Stmt)
    (envId : Nat) (st : LoxState) : Except Exc Unit × LoxState :=
  let previous := st.environment
  match projUnit (recur (.stmtsJ statements) { st with environment := envId }) with
  | (r, st₁) => (r, { st₁ with environment := previous })

/-- `Interpreter.visitWhileStmt`: loop while the condition is truthy; a
`Break` thrown by the body is caught here and terminates the loop; any
other exception propagates. -/
def stepWhile (recur : Job → LoxState → EvalOut) (condition : Expr)
    (body : Stmt) (st : LoxState) : Except Exc Unit × LoxState :=
  match projVal (recur (.exprJ condition) st) with
  | (.error err, st₁) => (.error err, st₁)
  | (.ok c, st₁) =>
    if isTruthy c then
      match projUnit (recur (.stmtJ body) st₁) with
      | (.ok _, st₂) => projUnit (recur (.whileJ condition body) st₂)
      | (.error (.brk _ _), st₂) => (.ok (), st₂)
      | (.error err, st₂) => (.error err, st₂)
    else (.ok (), st₁)

/-- Dispatch of `callee.call(this, args)` over the callable variants
(`LoxFunction`, `LoxClass`, and the natives from `gobals.ts`).  `clock`
returns `Date.now()`, wall-clock time the embedding cannot observe; it is
rendered as 0 and no theorem depends on it. -/
def stepCall (recur : Job → LoxState → EvalOut) (c : LoxValue)
    (args : List LoxValue) (st : LoxState) : Except Exc LoxValue × LoxState :=
  match c with
  | .fnV f => projVal (recur (.fnCallJ f args) st)
  | .classV cd => projVal (recur (.classCallJ cd args) st)
  | .nativeV .clock => (.ok (.num (LNum.ofInt 0)), st)
  | .nativeV .len => (lenNative (args.headD .undefinedV), st)
  | .nativeV .type => (.ok (typeNative (args.headD .undefinedV)), st)
  | _ => (.error (.hostErr "call on a non-callable"), st)

/-- `LoxFunction.call` (`values.ts`): bind arguments in a fresh environment
enclosing the closure, execute the body, catch only `LoxFunction.Return` —
an initializer yields the `this` bound in its closure, otherwise the
carried value (or null on normal completion).  Every other exception,
`Break` included, is rethrown past the call boundary. -/
def stepFnCall (recur : Job → LoxState → EvalOut) (f : FnData)
    (args : List LoxValue) (st : LoxState) : Except Exc LoxValue × LoxState :=
  let (envId, st₁) := fnCallSetup st f args
  match projUnit (recur (.blockJ f.body envId) st₁) with
  | (.ok _, st₂) =>
    if f.isInitializer then (.ok (envGetThis st₂ (chainFuel st₂) f.closure), st₂)
    else (.ok .nil, st₂)
  | (.error (.ret v), st₂) =>
    if f.isInitializer then (.ok (envGetThis st₂ (chainFuel st₂) f.closure), st₂)
    else (.ok v, st₂)
  | (.error err, st₂) => (.error err, st₂)

/-- `LoxClass.call` (`values.ts`): create a fresh instance; if an `init`
method exists (own or inherited), bind it to the instance and invoke it
with the arguments; return the instance regardless of what `init`
returned. -/
def stepClassCall (recur : Job → LoxState → EvalOut) (c : ClassData)
    (args : List LoxValue) (st : LoxState) : Except Exc LoxValue × LoxState :=
  let (instId, st₁) := st.allocInst ⟨c, []⟩
  match findMethod c "init" with
  | Option.none => (.ok (.instV instId), st₁)
  | some f =>
    let (bound, st₂) := bindFn st₁ f instId
    match projVal (recur (.fnCallJ bound args) st₂) with
    | (.ok _, st₃) => (.ok (.instV instId), st₃)
    | (.error err, st₃) => (.error err, st₃)

/-- `Interpreter.visitClassStmt`: evaluate the superclass (a `VariableExpr`)
and require a class value, then `execClassBody`. -/
def stepClass (recur : Job → LoxState → EvalOut) (name : Token)
    (superclass : Option (Nat × Token))
    (methods : List (Token × List Token × List Stmt)) (st : LoxState) :
    Except Exc Unit × LoxState :=
  match superclass with
  | some (sid, sname) =>
    match projVal (recur (.exprJ (.varE sid sname)) st) with
    | (.error err, st₁) => (.error err, st₁)
    | (.ok sv, st₁) =>
      match sv with
      | .classV sc => execClassBody name (some sc) methods st₁
      | _ => (.error (.rte sname "Superclass must be a class."), st₁)
  | Option.none => execClassBody name Option.none methods st

/-- One dispatch of the evaluator. -/
def interpStep (recur : Job → LoxState → EvalOut) (job : Job)
    (st : LoxState) : EvalOut :=
  match job with
  | .exprJ e => wrapV (stepExpr recur e st)
  | .argsJ es => wrapVs (stepArgs recur es st)
  | .stmtJ s => wrapU (stepStmt recur s st)
  | .stmtsJ ss => wrapU (stepStmts recur ss st)
  | .blockJ ss envId => wrapU (stepBlock recur ss envId st)
  | .whileJ condition body => wrapU (stepWhile recur condition body st)
  | .callJ c args => wrapV (stepCall recur c args st)
  | .fnCallJ f args => wrapV (stepFnCall recur f args st)
  | .classCallJ c args => wrapV (stepClassCall recur c args st)
  | .classJ name superclass methods =>
    wrapU (stepClass recur name superclass methods st)

/-- The fuel-indexed evaluator: every recursive dispatch consumes one unit
of fuel; exhausted fuel is the artificial `fuelOut` outcome. -/
def interpGo (fuel : Nat) : Job → LoxState → EvalOut :=
  Nat.rec (fun _ st => (.error .fuelOut, st)) (fun _ ih => interpStep ih) fuel

/-- `Interpreter.evaluate`. -/
def evalExpr (fuel : Nat) (e : Expr) (st : LoxState) :
    Except Exc LoxValue × LoxState :=
  projVal (interpGo fuel (.exprJ e) st)

/-- Argument-list evaluation. -/
def evalArgs (fuel : Nat) (es : List Expr) (st : LoxState) :
    Except Exc (List LoxValue) × LoxState :=
  projVals (interpGo fuel (.argsJ es) st)

/-- `Interpreter.execute`. -/
def execStmt (fuel : Nat) (s : Stmt) (st : LoxState) :
    Except Exc Unit × LoxState :=
  projUnit (interpGo fuel (.stmtJ s) st)

/-- The statement loop. -/
def execStmts (fuel : Nat) (ss : List Stmt) (st : LoxState) :
    Except Exc Unit × LoxState :=
  projUnit (interpGo fuel (.stmtsJ ss) st)

/-- `Interpreter.executeBlock`. -/
def execBlockIn (fuel : Nat) (ss : List Stmt) (envId : Nat) (st : LoxState) :
    Except Exc Unit × LoxState :=
  projUnit (interpGo fuel (.blockJ ss envId) st)

/-- `Interpreter.visitWhileStmt`'s loop. -/
def execWhile (fuel : Nat) (condition : Expr) (body : Stmt) (st : LoxState) :
    Except Exc Unit × LoxState :=
  projUnit (interpGo fuel (.whileJ condition body) st)

/-- `callee.call(this, args)`. -/
def callCallable (fuel : Nat) (c : LoxValue) (args : List LoxValue)
    (st : LoxState) : Except Exc LoxValue × LoxState :=
  projVal (interpGo fuel (.callJ c args) st)

/-- `LoxFunction.call`. -/
def functionCall (fuel : Nat) (f : FnData) (args : List LoxValue)
    (st : LoxState) : Except Exc LoxValue × LoxState :=
  projVal (interpGo fuel (.fnCallJ f args) st)

/-- `LoxClass.call`. -/
def classCall (fuel : Nat) (c : ClassData) (args : List LoxValue)
    (st : LoxState) : Except Exc LoxValue × LoxState :=
  projVal (interpGo fuel (.classCallJ c args) st)

/-! ## The interpret loop and the diagnostics sinks (`lox.ts`) -/

/-- `Lox.runtimeError`: `console.log(error.message, '\n[line L]')` (the two
arguments are joined with a space) and set `hadRuntimeError`. -/
def loxRuntimeError (st : LoxState) (tok : Token) (msg : String) : LoxState :=
  { st.log (msg ++ " \n[line " ++ toString tok.line ++ "]") with
    hadRuntimeError := true }

/-- `Interpreter.interpret` (class-aware variant): the whole statement loop
runs inside one `try`; a `RuntimeError` or `Break` escaping any statement
is reported via `Lox.runtimeError` — and the loop has already been
abandoned, so no further statement executes.  Any other exception is
rethrown out of `interpret` (returned as the `Option Exc` component). -/
def interpret (fuel : Nat) (stmts : List Stmt) (repl : Bool) (st : LoxState) :
    LoxState × Option Exc :=
  let st := { st with repl := repl }
  match execStmts fuel stmts st with
  | (.ok _, st₁) => (st₁, Option.none)
  | (.error (.rte tok msg), st₁) => (loxRuntimeError st₁ tok msg, Option.none)
  | (.error (.brk tok msg), st₁) => (loxRuntimeError st₁ tok msg, Option.none)
  | (.error e, st₁) => (st₁, some e)

/-- The exact rational value of the IEEE-754 double `Math.PI`. -/
def piRat : LNum := ⟨884279719003555, 281474976710656⟩

/-- The interpreter's initial state: the globals frame with `clock`, `len`,
`type`, `PI` defined by the constructor, empty stores, empty resolution
map. -/
def initState : LoxState :=
  { envs := [{ values := [("clock", .nativeV .clock), ("len", .nativeV .len),
               ("type", .nativeV .type), ("PI", .num piRat)],
               enclosing := Option.none }],
    insts := [], environment := 0, locals := [], out := [],
    hadError := false, hadRuntimeError := false, repl := false }

/-! ## The resolver (full variant, with classes) -/

/-- `FunctionType` from the resolver. -/
inductive FunctionType where
  | none | function | initializer | method
  deriving DecidableEq, Repr

/-- `ClassType` from the resolver. -/
inductive ClassType where
  | none | classT | subclass
  deriving DecidableEq, Repr

/-- `VariableState` from the resolver: `DECLARED`, `DEFINED`, `READ`. -/
inductive VariableState where
  | declared | defined | read
  deriving DecidableEq, Repr

/-- The resolver's per-slot record `Variable { name, state }`. -/
structure RVariable where
  name : Token
  state : VariableState
  deriving DecidableEq, Repr

/-- Resolver state: the scope stack (head = innermost scope, the `peek` of
the source's `Stack`), `currentFunction`, `currentClass`, the resolution
map written through `interpreter.resolve`, and the driver diagnostics
(`Lox.error` sets `hadError`; `Lox.warn` does not). -/
structure RState where
  scopes : List (List (String × RVariable))
  currentFunction : FunctionType
  currentClass : ClassType
  locals : List (Nat × Nat)
  out : List String
  hadError : Bool

/-- `Lox.error` → `Lox.report`:
`[line L : col C] Error <where>: <message>`, where `<where>` is `at end`
for an EOF token and `at '<lexeme>'` otherwise; sets `hadError`. -/
def rError (r : RState) (tok : Token) (msg : String) : RState :=
  let whereStr :=
    if tok.type = TT.eof then "at end" else "at '" ++ tok.lexeme ++ "'"
  { r with
    out := r.out ++
      ["[line " ++ toString tok.line ++ " : col " ++ toString tok.column ++
       "] Error " ++ whereStr ++ ": " ++ msg],
    hadError := true }

/-- `Lox.warn`: `[line L : col C] Warning at '<lexeme>': <message>`; does
not set `hadError`. -/
def rWarn (r : RState) (tok : Token) (msg : String) : RState :=
  { r with
    out := r.out ++
      ["[line " ++ toString tok.line ++ " : col " ++ toString tok.column ++
       "] Warning at '" ++ tok.lexeme ++ "': " ++ msg] }

/-- `Resolver.beginScope`. -/
def rBeginScope (r : RState) : RState :=
  { r with scopes := [] :: r.scopes }

/-- `Resolver.endScope`: pop the innermost scope and warn about every slot
still in the `DEFINED` state (defined but never read). -/
def rEndScope (r : RState) : RState :=
  match r.scopes with
  | [] => r
  | scope :: rest =>
    let r₁ := { r with scopes := rest }
    scope.foldl
      (fun acc kv =>
        if kv.2.state = VariableState.defined then
          rWarn acc kv.2.name
            "Local variable is defined but never used. Consider removing it."
        else acc)
      r₁

/-- `Resolver.declare`: no-op at global scope; an existing binding in the
innermost scope is the duplicate-declaration error; the slot is then set to
`DECLARED` either way. -/
def rDeclare (r : RState) (name : Token) : RState :=
  match r.scopes with
  | [] => r
  | scope :: rest =>
    let r₁ :=
      if (lookupA scope name.lexeme).isSome then
        rError r name "Variable with this name already declared in this scope."
      else r
    { r₁ with
      scopes := insertA scope name.lexeme ⟨name, VariableState.declared⟩ :: rest }

/-- `Resolver.define`: set the innermost slot to `DEFINED` (a fresh
`Variable`, so a `READ` state is overwritten). -/
def rDefine (r : RState) (name : Token) : RState :=
  match r.scopes with
  | [] => r
  | scope :: rest =>
    { r with
      scopes := insertA scope name.lexeme ⟨name, VariableState.defined⟩ :: rest }

/-- Mark the slot for `name` in scope `j` (counted from the innermost) as
`READ`. -/
def markRead (scopes : List (List (String × RVariable))) (j : Nat)
    (name : String) : List (List (String × RVariable)) :=
  match scopes, j with
  | [], _ => []
  | scope :: rest, 0 =>
    (match lookupA scope name with
     | some v => insertA scope name { v with state := VariableState.read }
     | Option.none => scope) :: rest
  | scope :: rest, j + 1 => scope :: markRead rest j name

/-- `Resolver.resolveLocal`: walk the scope stack from the innermost scope
outward; at the first scope containing the name, record
`interpreter.resolve(expr, depth)` where `depth` is the number of scopes
between the reference and that scope, and mark the slot `READ` when the
reference is a read.  No match means the name is assumed global and no map
entry is written. -/
def rResolveLocal (r : RState) (id : Nat) (name : Token) (isRead : Bool) :
    RState :=
  let rec walk (scopes : List (List (String × RVariable))) (j : Nat) :
      Option Nat :=
    match scopes with
    | [] => Option.none
    | scope :: rest =>
      if (lookupA scope name.lexeme).isSome then some j else walk rest (j + 1)
  match walk r.scopes 0 with
  | Option.none => r
  | some j =>
    let r₁ := { r with locals := resolveAt r.locals id j }
    if isRead then { r₁ with scopes := markRead r₁.scopes j name.lexeme }
    else r₁

mutual

/-- The resolver's expression visitor. -/
def resolveExpr : Nat → Expr → RState → RState
  | 0, _, r => r
  | fuel + 1, e, r =>
    match e with
    | .assignE id name value =>
      rResolveLocal (resolveExpr fuel value r) id name false
    | .binaryE left _ right =>
      resolveExpr fuel right (resolveExpr fuel left r)
    | .callE callee _ args =>
      resolveExprList fuel args (resolveExpr fuel callee r)
    | .conditionalE condition thenBranch elseBranch =>
      resolveExpr fuel elseBranch
        (resolveExpr fuel thenBranch (resolveExpr fuel condition r))
    | .fnE params body =>
      resolveFunctionR fuel params body FunctionType.function r
    | .getE object _ => resolveExpr fuel object r
    | .groupingE inner => resolveExpr fuel inner r
    | .literalE _ => r
    | .logicalE left _ right =>
      resolveExpr fuel right (resolveExpr fuel left r)
    | .setE object _ value =>
      resolveExpr fuel object (resolveExpr fuel value r)
    | .unaryE _ right => resolveExpr fuel right r
    | .varE id name =>
      let r₁ :=
        match r.scopes with
        | [] => r
        | scope :: _ =>
          match lookupA scope name.lexeme with
          | some v =>
            if v.state = VariableState.declared then
              rError r name "Cannot read local variable in its own initializer."
            else r
          | Option.none => r
      rResolveLocal r₁ id name true
    | .thisE id keyword =>
      let r₁ :=
        if r.currentClass = ClassType.none then
          rError r keyword "Cannot use 'this' outside of a class."
        else r
      rResolveLocal r₁ id keyword true
    | .superE id keyword _ =>
      let r₁ :=
        if r.currentClass = ClassType.none then
          rError r keyword "Cannot use 'super' outside of a class."
        else if r.currentClass ≠ ClassType.subclass then
          rError r keyword "Cannot use 'super' in a class with no superclas."
        else r
      rResolveLocal r₁ id keyword true

/-- Resolution of a call's argument list. -/
def resolveExprList : Nat → List Expr → RState → RState
  | 0, _, r => r
  | _ + 1, [], r => r
  | fuel + 1, e :: rest, r => resolveExprList fuel rest (resolveExpr fuel e r)

/-- The resolver's statement visitor. -/
def resolveStmt : Nat → Stmt → RState → RState
  | 0, _, r => r
  | fuel + 1, s, r =>
    match s with
    | .blockS statements =>
      rEndScope (resolveStmts fuel statements (rBeginScope r))
    | .breakS _ => r
    | .classS name superclass methods =>
      resolveClass fuel name superclass methods r
    | .echoS e => resolveExpr fuel e r
    | .exprS e => resolveExpr fuel e r
    | .functionS name params body =>
      resolveFunctionR fuel params body FunctionType.function
        (rDefine (rDeclare r name) name)
    | .ifS condition thenBranch elseBranch =>
      let r₁ := resolveStmt fuel thenBranch (resolveExpr fuel condition r)
      match elseBranch with
      | some eb => resolveStmt fuel eb r₁
      | Option.none => r₁
    | .letS name initializer =>
      let r₁ := rDeclare r name
      let r₂ :=
        match initializer with
        | some e => resolveExpr fuel e r₁
        | Option.none => r₁
      rDefine r₂ name
    | .returnS keyword value =>
      let r₁ :=
        if r.currentFunction = FunctionType.none then
          rError r keyword "Cannot return from top-level code."
        else r
      match value with
      | some e =>
        let r₂ :=
          if r₁.currentFunction = FunctionType.initializer then
            rError r₁ keyword "Cannot return a value from an initializer."
          else r₁
        resolveExpr fuel e r₂
      | Option.none => r₁
    | .whileS condition body =>
      resolveStmt fuel body (resolveExpr fuel condition r)

/-- `Resolver.visitClassStmt`. -/
def resolveClass : Nat → Token → Option (Nat × Token) →
    List (Token × List Token × List Stmt) → RState → RState
  | 0, _, _, _, r => r
  | fuel + 1, name, superclass, methods, r =>
  let enclosingClass := r.currentClass
  let r₁ := { r with currentClass := ClassType.classT }
  let r₂ := rDefine (rDeclare r₁ name) name
  let r₃ :=
    match superclass with
    | some (_, sname) =>
      if name.lexeme = sname.lexeme then
        rError r₂ sname "A class cannot inherit from itself."
      else r₂
    | Option.none => r₂
  let r₄ :=
    match superclass with
    | some (sid, sname) =>
      resolveExpr fuel (.varE sid sname)
        { r₃ with currentClass := ClassType.subclass }
    | Option.none => r₃
  let r₅ :=
    match superclass with
    | some _ =>
      let rs := rBeginScope r₄
      match rs.scopes with
      | scope :: rest =>
        { rs with
          scopes := insertA scope "super" ⟨name, VariableState.read⟩ :: rest }
      | [] => rs
    | Option.none => r₄
  let r₆ :=
    let rs := rBeginScope r₅
    match rs.scopes with
    | scope :: rest =>
      { rs with
        scopes := insertA scope "this" ⟨name, VariableState.read⟩ :: rest }
    | [] => rs
  let r₇ :=
    methods.foldl
      (fun acc m =>
        resolveFunctionR fuel m.2.1 m.2.2
          (if m.1.lexeme = "init" then FunctionType.initializer
           else FunctionType.method)
          acc)
      r₆
  let r₈ := rEndScope r₇
  let r₉ :=
    match superclass with
    | some _ => rEndScope r₈
    | Option.none => r₈
  { r₉ with currentClass := enclosingClass }

/-- The list form of `Resolver.resolve`. -/
def resolveStmts : Nat → List Stmt → RState → RState
  | 0, _, r => r
  | _ + 1, [], r => r
  | fuel + 1, s :: rest, r => resolveStmts fuel rest (resolveStmt fuel s r)

/-- `Resolver.resolveFunction`: save `currentFunction`, push a scope,
declare and define each parameter, resolve the body, pop, restore. -/
def resolveFunctionR : Nat → List Token → List Stmt → FunctionType →
    RState → RState
  | 0, _, _, _, r => r
  | fuel + 1, params, body, type, r =>
  let enclosingFunction := r.currentFunction
  let r₁ := { r with currentFunction := type }
  let r₂ :=
    params.foldl (fun acc p => rDefine (rDeclare acc p) p) (rBeginScope r₁)
  let r₃ := resolveStmts fuel body r₂
  let r₄ := rEndScope r₃
  { r₄ with currentFunction := enclosingFunction }

end

/-- The initial resolver state. -/
def initRState : RState :=
  { scopes := [], currentFunction := FunctionType.none,
    currentClass := ClassType.none, locals := [], out := [],
    hadError := false }

/-! ## The file-mode pipeline (`Lox.run` / `Lox.file`)

Lexing and parsing are not part of this pipeline embedding: the claims
below operate on embedded ASTs (the lexer is embedded separately further
down).  `Lox.run` resolves the statements and stops when the resolver set
`hadError` (exit code 65); otherwise it interprets them with the resolution
map the resolver produced; `Lox.file` then exits 65/70/0 according to the
sticky flags. -/

/-- The result of running a program in file mode: the final state (console
output, flags, stores) and, when an exception other than
`RuntimeError`/`Break` escaped `interpret`, that uncaught exception (the
host process would crash on it). -/
structure RunResult where
  st : LoxState
  uncaught : Option Exc

/-- Resolve, then interpret unless the resolver reported an error. -/
def runFile (fuel : Nat) (stmts : List Stmt) : RunResult :=
  let r := resolveStmts fuel stmts initRState
  if r.hadError then
    ⟨{ initState with out := r.out, hadError := true }, Option.none⟩
  else
    let st₀ := { initState with locals := r.locals, out := r.out }
    let (st₁, exc) := interpret fuel stmts false st₀
    ⟨st₁, exc⟩

/-- The exit code `Lox.file` produces (meaningful when no exception
escaped): 65 for a static error, 70 for a runtime error, 0 otherwise. -/
def exitCode (res : RunResult) : Nat :=
  if res.st.hadError then 65
  else if res.st.hadRuntimeError then 70
  else 0

/-! ## The lexer (`lexer.ts`)

The `Lexer` class scans the source left to right.  Its errors go straight
to the console (`console.log` for an unexpected character, `console.error`
for an unterminated string); neither path calls `Lox.error`/`Lox.report`,
so the embedded lexer collects messages in `msgs` and never touches the
driver's `hadError` flag, exactly as the source does. -/

/-- `isDigit` from `lexer.ts`. -/
def isDigitC (c : Char) : Bool := '0' ≤ c ∧ c ≤ '9'

/-- `isAlpha` from `lexer.ts` (letters plus `_ $ @ #`). -/
def isAlphaC (c : Char) : Bool :=
  ('a' ≤ c ∧ c ≤ 'z') ∨ ('A' ≤ c ∧ c ≤ 'Z') ∨ c = '_' ∨ c = '$' ∨ c = '@' ∨ c = '#'

/-- `isAlphaNumeric` from `lexer.ts`. -/
def isAlphaNumericC (c : Char) : Bool := isAlphaC c || isDigitC c

/-- The `KEYWORDS` lookup table. -/
def keywordType (s : String) : Option TT :=
  match s with
  | "and" => some .kwAnd
  | "break" => some .kwBreak
  | "class" => some .kwClass
  | "echo" => some .kwEcho
  | "else" => some .kwElse
  | "false" => some .kwFalse
  | "for" => some .kwFor
  | "fn" => some .kwFn
  | "if" => some .kwIf
  | "let" => some .kwLet
  | "nil" => some .kwNil
  | "or" => some .kwOr
  | "return" => some .kwReturn
  | "super" => some .kwSuper
  | "this" => some .kwThis
  | "true" => some .kwTrue
  | "while" => some .kwWhile
  | _ => Option.none

/-- The lexer's mutable fields plus the console messages it prints. -/
structure LexState where
  src : List Char
  tokens : List Token
  start : Nat
  cursor : Nat
  line : Nat
  msgs : List String

/-- `Lexer.isAtEnd`. -/
def LexState.isAtEnd (lx : LexState) : Bool := lx.cursor ≥ lx.src.length

/-- The `at` getter: the character at the cursor, `'\0'` at the end. -/
def LexState.atChar (lx : LexState) : Char := lx.src.getD lx.cursor '\x00'

/-- The `next` getter: the character after the cursor, `'\0'` past the
end. -/
def LexState.nextChar (lx : LexState) : Char := lx.src.getD (lx.cursor + 1) '\x00'

/-- `Lexer.advance`. -/
def LexState.adv (lx : LexState) : LexState := { lx with cursor := lx.cursor + 1 }

/-- `Lexer.match(expected)`: conditional advance. -/
def LexState.matchChar (lx : LexState) (expected : Char) : Bool × LexState :=
  if lx.isAtEnd || lx.atChar ≠ expected then (false, lx) else (true, lx.adv)

/-- `source.substring(a, b)` on the character list. -/
def subStr (cs : List Char) (a b : Nat) : String :=
  String.mk ((cs.drop a).take (b - a))

/-- `source.lastIndexOf('\n', fromIdx)`: the largest index `k ≤ fromIdx`
holding a newline, if any. -/
def lastNlAt (cs : List Char) : Nat → Option Nat
  | 0 => if cs.getD 0 ' ' = '\n' then some 0 else Option.none
  | k + 1 => if cs.getD (k + 1) ' ' = '\n' then some (k + 1) else lastNlAt cs k

/-- `Lexer.push`: make a token from the current lexeme; the recorded column
is the distance from the last preceding newline to the token's end. -/
def LexState.pushTok (lx : LexState) (t : TT) (literal : Lit) : LexState :=
  let raw := subStr lx.src lx.start lx.cursor
  let column :=
    match lastNlAt lx.src lx.start with
    | some k => lx.cursor - k - 1
    | Option.none => lx.cursor
  { lx with tokens := lx.tokens ++ [⟨t, raw, literal, lx.line, column⟩] }

/-- The body of `Lexer.string`'s scanning loop: advance (counting embedded
newlines) until the matching delimiter or the end of input. -/
def scanStringBody (quote : Char) : Nat → LexState → LexState
  | 0, lx => lx
  | fuel + 1, lx =>
    if lx.atChar ≠ quote ∧ ¬lx.isAtEnd then
      let lx₁ := if lx.atChar = '\n' then { lx with line := lx.line + 1 } else lx
      scanStringBody quote fuel lx₁.adv
    else lx

/-- `Lexer.string(quote)`: scan to the matching delimiter; an unterminated
string prints `Unterminated string` (via `console.error`) and produces no
token; otherwise the token's literal is the raw inner text. -/
def scanString (quote : Char) (lx : LexState) : LexState :=
  let lx₁ := scanStringBody quote (lx.src.length + 1) lx
  if lx₁.isAtEnd then { lx₁ with msgs := lx₁.msgs ++ ["Unterminated string"] }
  else
    let lx₂ := lx₁.adv
    let value := subStr lx₂.src (lx₂.start + 1) (lx₂.cursor - 1)
    lx₂.pushTok .stringLit (.str value)

/-- Advance while the predicate holds of the current character. -/
def advanceWhile (p : Char → Bool) : Nat → LexState → LexState
  | 0, lx => lx
  | fuel + 1, lx =>
    if p lx.atChar then advanceWhile p fuel lx.adv else lx

/-- The comment loop: advance until a newline or the end of input. -/
def skipComment : Nat → LexState → LexState
  | 0, lx => lx
  | fuel + 1, lx =>
    if lx.atChar ≠ '\n' ∧ ¬lx.isAtEnd then skipComment fuel lx.adv else lx

/-- `parseFloat` on a lexeme of the shape `digits (. digits)?`. -/
def parseNumberLit (cs : List Char) : LNum :=
  let ip := cs.takeWhile (fun c => isDigitC c)
  let rest := cs.drop ip.length
  let intVal : Nat := ip.foldl (fun a c => a * 10 + (c.toNat - '0'.toNat)) 0
  match rest with
  | '.' :: fp =>
    let frVal : Nat := fp.foldl (fun a c => a * 10 + (c.toNat - '0'.toNat)) 0
    LNum.norm (intVal * (10 : Int) ^ fp.length + frVal) ((10 : Nat) ^ fp.length)
  | _ => LNum.ofInt intVal

/-- `Lexer.number`. -/
def scanNumber (lx : LexState) : LexState :=
  let lx₁ := advanceWhile (fun c => isDigitC c) (lx.src.length + 1) lx
  let lx₂ :=
    if lx₁.atChar = '.' ∧ isDigitC lx₁.nextChar then
      advanceWhile (fun c => isDigitC c) (lx₁.src.length + 1) lx₁.adv
    else lx₁
  lx₂.pushTok .numberLit (.num (parseNumberLit ((lx₂.src.drop lx₂.start).take (lx₂.cursor - lx₂.start))))

/-- `Lexer.identifier`: scan the identifier and classify it through the
keyword table. -/
def scanIdentifier (lx : LexState) : LexState :=
  let lx₁ := advanceWhile (fun c => isAlphaNumericC c) (lx.src.length + 1) lx
  let text := subStr lx₁.src lx₁.start lx₁.cursor
  lx₁.pushTok ((keywordType text).getD .identifier) .none

/-- `Lexer.scan`: consume one character and dispatch.  The default branch
prints `Unexpected character: <c>` with `console.log` — it does not call
the `Lox` diagnostics sink. -/
def scanOne (lx : LexState) : LexState :=
  let c := lx.src.getD lx.cursor '\x00'
  let lx := lx.adv
  match c with
  | '(' => lx.pushTok .lparen .none
  | ')' => lx.pushTok .rparen .none
  | '{' => lx.pushTok .lbrace .none
  | '}' => lx.pushTok .rbrace .none
  | ',' => lx.pushTok .comma .none
  | '^' => lx.pushTok .caret .none
  | ':' => lx.pushTok .colon .none
  | '.' => lx.pushTok .dot .none
  | '-' => lx.pushTok .minus .none
  | '+' => lx.pushTok .plus .none
  | '?' => lx.pushTok .question .none
  | ';' => lx.pushTok .semicolon .none
  | '*' => lx.pushTok .star .none
  | '!' =>
    let (m, lx₁) := lx.matchChar '='
    lx₁.pushTok (if m then .bangEqual else .bang) .none
  | '=' =>
    let (m, lx₁) := lx.matchChar '='
    lx₁.pushTok (if m then .equalEqual else .equal) .none
  | '<' =>
    let (m, lx₁) := lx.matchChar '='
    lx₁.pushTok (if m then .lessEqual else .less) .none
  | '>' =>
    let (m, lx₁) := lx.matchChar '='
    lx₁.pushTok (if m then .greaterEqual else .greater) .none
  | '/' =>
    let (m, lx₁) := lx.matchChar '/'
    if m then skipComment (lx₁.src.length + 1) lx₁
    else lx₁.pushTok .slash .none
  | ' ' => lx
  | '\r' => lx
  | '\t' => lx
  | '\n' => { lx with line := lx.line + 1 }
  | '"' => scanString '"' lx
  | '\'' => scanString '\'' lx
  | c =>
    if isDigitC c then scanNumber lx
    else if isAlphaC c then scanIdentifier lx
    else { lx with msgs := lx.msgs ++ ["Unexpected character: " ++ String.mk [c]] }

/-- The `while (!this.isAtEnd())` loop of `Lexer.lex`. -/
def lexLoop : Nat → LexState → LexState
  | 0, lx => lx
  | fuel + 1, lx =>
    if lx.isAtEnd then lx
    else lexLoop fuel (scanOne { lx with start := lx.cursor })

/-- `Lexer.lex`: run the scan loop, then append the synthetic `EOF` token
unconditionally. -/
def lex (source : String) : LexState :=
  let cs := source.toList
  let lx₀ : LexState :=
    { src := cs, tokens := [], start := 0, cursor := 0, line := 1, msgs := [] }
  let lx₁ := lexLoop (cs.length + 1) lx₀
  { lx₁ with tokens := lx₁.tokens ++ [⟨.eof, "", .none, lx₁.line, 0⟩] }

/-- The lexing stage of `Lox.run` as the driver sees it: `lexer.lex()`
produces the token vector (and whatever the lexer printed to the console),
while the driver's `hadError` flag is whatever it was before — nothing in
`Lexer` calls `Lox.error`/`Lox.report`. -/
structure LexPhaseOut where
  tokens : List Token
  console : List String
  hadError : Bool

/-- Run the lexer inside the driver with a given incoming `hadError`. -/
def lexPhase (source : String) (hadError₀ : Bool) : LexPhaseOut :=
  let l := lex source
  ⟨l.tokens, l.msgs, hadError₀⟩

/-! ## Characterization apparatus

Mathematical devices used only to state theorems: the materialized
`enclosing` chain of an environment, and an executable well-formedness
check of the environment store. -/

/-- The frames reachable from environment `i` along `enclosing` pointers,
as a list (truncated by the fuel or by a dangling id). -/
def chainFrames (st : LoxState) : Nat → Nat → List Frame
  | 0, _ => []
  | fuel + 1, i =>
    match st.frame i with
    | Option.none => []
    | some f =>
      f :: (match f.enclosing with
            | some j => chainFrames st fuel j
            | Option.none => [])

/-- Executable store well-formedness: every frame's `enclosing` id is
smaller than its own id.  Every store the evaluator builds satisfies this,
because a frame only ever encloses an already-allocated frame. -/
def wfStoreB (st : LoxState) : Bool :=
  (List.range st.envs.length).all fun i =>
    match st.envs[i]? with
    | some f =>
      match f.enclosing with
      | some j => decide (j < i)
      | Option.none => true
    | Option.none => true

/-! ## Embedded programs

The concrete Lox programs that the claims mention, as ASTs (the output of
the parser on the given sources; resolvable-expression ids are assigned
distinct numbers). -/

/-- Spec scenario S4:
`let i = 0; while (true) { if (i == 3) break; i = i + 1; }`
`echo i; echo 1 / 0; echo "after";` with the division on source line 4. -/
def s4Prog : List Stmt :=
  [ .letS (mkTok .identifier "i" 1) (some (.literalE (.num 0))),
    .whileS (.literalE (.bool true))
      (.blockS
        [ .ifS (.binaryE (.varE 1 (mkTok .identifier "i" 2))
                 (mkTok .equalEqual "==" 2) (.literalE (.num 3)))
            (.breakS (mkTok .kwBreak "break" 2)) Option.none,
          .exprS (.assignE 2 (mkTok .identifier "i" 2)
            (.binaryE (.varE 3 (mkTok .identifier "i" 2))
              (mkTok .plus "+" 2) (.literalE (.num 1)))) ]),
    .echoS (.varE 4 (mkTok .identifier "i" 3)),
    .echoS (.binaryE (.literalE (.num 1)) (mkTok .slash "/" 4)
      (.literalE (.num 0))),
    .echoS (.literalE (.str "after")) ]

/-- The resolver-soundness probe:
`{ let a = (fn() { return a; })(); echo type(a); }`.
The inner `a` (id 1) reads the block-local `a` from inside a function body
that runs during `a`'s own initializer; the later `a` (id 2) is the
argument of `type`. -/
def selfInitProg : List Stmt :=
  [ .blockS
      [ .letS (mkTok .identifier "a" 1)
          (some (.callE
            (.groupingE (.fnE [] [ .returnS (mkTok .kwReturn "return" 1)
                                     (some (.varE 1 (mkTok .identifier "a" 1))) ]))
            (mkTok .rparen ")" 1) [])),
        .echoS (.callE (.varE 3 (mkTok .identifier "type" 2))
                 (mkTok .rparen ")" 2) [.varE 2 (mkTok .identifier "a" 2)]) ] ]

/-- Spec scenario S5:
`class Box { init(v) { this.v = v; } } let b = Box(42);`
`echo b.v; echo type(b);`. -/
def s5Prog : List Stmt :=
  [ .classS (mkTok .identifier "Box" 1) Option.none
      [ (mkTok .identifier "init" 1, [mkTok .identifier "v" 1],
         [ .exprS (.setE (.thisE 1 (mkTok .kwThis "this" 1))
             (mkTok .identifier "v" 1) (.varE 2 (mkTok .identifier "v" 1))) ]) ],
    .letS (mkTok .identifier "b" 2)
      (some (.callE (.varE 3 (mkTok .identifier "Box" 2)) (mkTok .rparen ")" 2)
        [.literalE (.num 42)])),
    .echoS (.getE (.varE 4 (mkTok .identifier "b" 3)) (mkTok .identifier "v" 3)),
    .echoS (.callE (.varE 5 (mkTok .identifier "type" 4)) (mkTok .rparen ")" 4)
      [.varE 6 (mkTok .identifier "b" 4)]) ]

/-- `class Box { init(v) { this.v = v; return; } } let b = Box(42);`
`echo type(b);` — a bare `return;` inside `init`. -/
def bareReturnInitProg : List Stmt :=
  [ .classS (mkTok .identifier "Box" 1) Option.none
      [ (mkTok .identifier "init" 1, [mkTok .identifier "v" 1],
         [ .exprS (.setE (.thisE 1 (mkTok .kwThis "this" 1))
             (mkTok .identifier "v" 1) (.varE 2 (mkTok .identifier "v" 1))),
           .returnS (mkTok .kwReturn "return" 1) Option.none ]) ],
    .letS (mkTok .identifier "b" 2)
      (some (.callE (.varE 3 (mkTok .identifier "Box" 2)) (mkTok .rparen ")" 2)
        [.literalE (.num 42)])),
    .echoS (.callE (.varE 5 (mkTok .identifier "type" 3)) (mkTok .rparen ")" 3)
      [.varE 6 (mkTok .identifier "b" 3)]) ]

/-- `len(5);` — the native `len` applied to a non-string. -/
def lenMisuseProg : List Stmt :=
  [ .exprS (.callE (.varE 1 (mkTok .identifier "len" 1)) (mkTok .rparen ")" 1)
      [.literalE (.num 5)]) ]

/-- `fn f() { break; } while (true) { f(); }` — a `break` with no
enclosing loop in its own function, called from inside the caller's
loop. -/
def breakAcrossCallProg : List Stmt :=
  [ .functionS (mkTok .identifier "f" 1) []
      [ .breakS (mkTok .kwBreak "break" 1) ],
    .whileS (.literalE (.bool true))
      (.blockS [ .exprS (.callE (.varE 1 (mkTok .identifier "f" 2))
                   (mkTok .rparen ")" 2) []) ]) ]

/-! ## Witness fixtures

Small concrete stores and values used by the witness theorems. -/

/-- A two-frame store: globals-like frame 0 binding `x`, an inner frame 1
binding `y` and enclosing frame 0; the current environment is 1. -/
def c5Store : LoxState :=
  { initState with
    envs := [ { values := [("x", .num 1)], enclosing := Option.none },
              { values := [("y", .num 2)], enclosing := some 0 } ],
    environment := 1 }

/-- A class with no methods at all (hence no `init`). -/
def cNoInit : ClassData := .mk "C" Option.none []

/-- A class whose `init` takes no parameters and has an empty body. -/
def cWithInit : ClassData :=
  .mk "D" Option.none [("init", ⟨some "init", [], [], 0, true⟩)]

/-- The state after calling `cWithInit`'s bound `init` on the fresh
instance from `initState`: the instance plus the two environments the
binding and the call allocated. -/
def cWithInitCallState : LoxState :=
  { initState with
    envs := initState.envs ++
      [⟨[("this", .instV 0)], some 0⟩, ⟨[], some 1⟩],
    insts := [⟨cWithInit, []⟩] }

/-- The `break`-only function of `breakAcrossCallProg`, as a runtime
function value closing over the globals. -/
def fBreakData : FnData :=
  ⟨some "f", [], [.breakS (mkTok .kwBreak "break" 1)], 0, false⟩

/-! ## Unfolding lemmas for the fuel-indexed evaluator -/

theorem interpGo_zero (job : Job) (st : LoxState) :
    interpGo 0 job st = (.error .fuelOut, st) := rfl

theorem interpGo_succ (fuel : Nat) :
    interpGo (fuel + 1) = interpStep (interpGo fuel) := rfl

theorem projUnit_wrapU (p : Except Exc Unit × LoxState) :
    projUnit (wrapU p) = p := by
  obtain ⟨r, st⟩ := p
  cases r with
  | ok u => rfl
  | error e => rfl

theorem projVal_wrapV (p : Except Exc LoxValue × LoxState) :
    projVal (wrapV p) = p := by
  obtain ⟨r, st⟩ := p
  cases r with
  | ok v => rfl
  | error e => rfl

theorem projVals_wrapVs (p : Except Exc (List LoxValue) × LoxState) :
    projVals (wrapVs p) = p := by
  obtain ⟨r, st⟩ := p
  cases r with
  | ok v => rfl
  | error e => rfl

theorem execStmts_zero (ss : List Stmt) (st : LoxState) :
    execStmts 0 ss st = (.error .fuelOut, st) := rfl

theorem execStmts_succ_nil (fuel : Nat) (st : LoxState) :
    execStmts (fuel + 1) [] st = (.ok (), st) := rfl

theorem execStmts_succ_cons_err (fuel : Nat) (s : Stmt) (ss : List Stmt)
    (st : LoxState) (e : Exc) (st₁ : LoxState)
    (h : execStmt fuel s st = (.error e, st₁)) :
    execStmts (fuel + 1) (s :: ss) st = (.error e, st₁) := by
  show projUnit (wrapU (stepStmts (interpGo fuel) (s :: ss) st)) = _
  rw [projUnit_wrapU]
  show (match projUnit (interpGo fuel (.stmtJ s) st) with
        | (.error err, st₁) => ((.error err : Except Exc Unit), st₁)
        | (.ok _, st₁) => projUnit (interpGo fuel (.stmtsJ ss) st₁)) = _
  rw [show projUnit (interpGo fuel (.stmtJ s) st) = execStmt fuel s st from rfl, h]

theorem execStmts_succ_cons_ok (fuel : Nat) (s : Stmt) (ss : List Stmt)
    (st : LoxState) (u : Unit) (st₁ : LoxState)
    (h : execStmt fuel s st = (.ok u, st₁)) :
    execStmts (fuel + 1) (s :: ss) st = execStmts fuel ss st₁ := by
  show projUnit (wrapU (stepStmts (interpGo fuel) (s :: ss) st)) = _
  rw [projUnit_wrapU]
  show (match projUnit (interpGo fuel (.stmtJ s) st) with
        | (.error err, st₁) => ((.error err : Except Exc Unit), st₁)
        | (.ok _, st₁) => projUnit (interpGo fuel (.stmtsJ ss) st₁)) = _
  rw [show projUnit (interpGo fuel (.stmtJ s) st) = execStmt fuel s st from rfl, h]
  rfl

theorem execBlockIn_zero (ss : List Stmt) (envId : Nat) (st : LoxState) :
    execBlockIn 0 ss envId st = (.error .fuelOut, st) := rfl

/-- The `finally`-shaped unfolding of `executeBlock`: whatever the
statement loop produced, the previous environment pointer is restored
around it. -/
theorem execBlockIn_succ (fuel : Nat) (ss : List Stmt) (envId : Nat)
    (st : LoxState) (r : Except Exc Unit) (st₁ : LoxState)
    (h : execStmts fuel ss { st with environment := envId } = (r, st₁)) :
    execBlockIn (fuel + 1) ss envId st =
      (r, { st₁ with environment := st.environment }) := by
  show projUnit (wrapU (stepBlock (interpGo fuel) ss envId st)) = _
  rw [projUnit_wrapU]
  show (match projUnit (interpGo fuel (.stmtsJ ss) { st with environment := envId }) with
        | (r, st₁) => (r, { st₁ with environment := st.environment })) = _
  rw [show projUnit (interpGo fuel (.stmtsJ ss) { st with environment := envId })
        = execStmts fuel ss { st with environment := envId } from rfl, h]

/-- Unfolding of `LoxFunction.call` when the body threw an exception other
than `Return`: the call boundary rethrows it unchanged. -/
theorem functionCall_succ_reraise (fuel : Nat) (f : FnData)
    (args : List LoxValue) (st : LoxState) (e : Exc) (st₂ : LoxState)
    (h : execBlockIn fuel f.body (fnCallSetup st f args).1
           (fnCallSetup st f args).2 = (.error e, st₂))
    (hne : ∀ v, e ≠ .ret v) :
    functionCall (fuel + 1) f args st = (.error e, st₂) := by
  show projVal (wrapV (stepFnCall (interpGo fuel) f args st)) = _
  rw [projVal_wrapV]
  show (match projUnit (interpGo fuel (.blockJ f.body (fnCallSetup st f args).1)
                 (fnCallSetup st f args).2) with
        | (.ok _, st₂) =>
          if f.isInitializer then
            ((.ok (envGetThis st₂ (chainFuel st₂) f.closure) : Except Exc LoxValue), st₂)
          else (.ok .nil, st₂)
        | (.error (.ret v), st₂) =>
          if f.isInitializer then
            (.ok (envGetThis st₂ (chainFuel st₂) f.closure), st₂)
          else (.ok v, st₂)
        | (.error err, st₂) => (.error err, st₂)) = _
  rw [show projUnit (interpGo fuel (.blockJ f.body (fnCallSetup st f args).1)
            (fnCallSetup st f args).2)
        = execBlockIn fuel f.body (fnCallSetup st f args).1
            (fnCallSetup st f args).2 from rfl, h]
  cases e with
  | ret v => exact absurd rfl (hne v)
  | rte t m => rfl
  | brk t m => rfl
  | hostErr m => rfl
  | fuelOut => rfl

/-- Unfolding of `LoxClass.call` when an `init` method exists and its
bound invocation completed with some value: the fresh instance is returned
and the value is discarded. -/
theorem classCall_succ_init_ok (fuel : Nat) (c : ClassData)
    (args : List LoxValue) (st : LoxState) (f : FnData) (v : LoxValue)
    (st₃ : LoxState)
    (hinit : findMethod c "init" = some f)
    (h : functionCall fuel
           (bindFn (st.allocInst ⟨c, []⟩).2 f (st.allocInst ⟨c, []⟩).1).1 args
           (bindFn (st.allocInst ⟨c, []⟩).2 f (st.allocInst ⟨c, []⟩).1).2
         = (.ok v, st₃)) :
    classCall (fuel + 1) c args st = (.ok (.instV st.insts.length), st₃) := by
  show projVal (wrapV (stepClassCall (interpGo fuel) c args st)) = _
  rw [projVal_wrapV]
  unfold stepClassCall
  rw [hinit]
  show (match projVal (interpGo fuel
          (.fnCallJ (bindFn (st.allocInst ⟨c, []⟩).2 f (st.allocInst ⟨c, []⟩).1).1 args)
          (bindFn (st.allocInst ⟨c, []⟩).2 f (st.allocInst ⟨c, []⟩).1).2) with
        | (.ok _, st₃) => ((.ok (.instV (st.allocInst ⟨c, []⟩).1) : Except Exc LoxValue), st₃)
        | (.error err, st₃) => (.error err, st₃)) = _
  rw [show projVal (interpGo fuel
          (.fnCallJ (bindFn (st.allocInst ⟨c, []⟩).2 f (st.allocInst ⟨c, []⟩).1).1 args)
          (bindFn (st.allocInst ⟨c, []⟩).2 f (st.allocInst ⟨c, []⟩).1).2)
        = functionCall fuel
            (bindFn (st.allocInst ⟨c, []⟩).2 f (st.allocInst ⟨c, []⟩).1).1 args
            (bindFn (st.allocInst ⟨c, []⟩).2 f (st.allocInst ⟨c, []⟩).1).2 from rfl, h]
  rfl

/-- Unfolding of `LoxClass.call` when there is no `init` method: a fresh
instance with an empty field map, no invocation. -/
theorem classCall_succ_noinit (fuel : Nat) (c : ClassData)
    (args : List LoxValue) (st : LoxState)
    (hinit : findMethod c "init" = Option.none) :
    classCall (fuel + 1) c args st =
      (.ok (.instV st.insts.length), (st.allocInst ⟨c, []⟩).2) := by
  show projVal (wrapV (stepClassCall (interpGo fuel) c args st)) = _
  rw [projVal_wrapV]
  unfold stepClassCall
  rw [hinit]
  rfl

/-- Unfolding of `visitWhileStmt` when the condition is truthy and the body
threw `Break`: the loop catches it and completes normally. -/
theorem execWhile_succ_caught_break (fuel : Nat) (condition : Expr)
    (body : Stmt) (st : LoxState) (c : LoxValue) (st₁ : LoxState)
    (t : Token) (m : String) (st₂ : LoxState)
    (hc : evalExpr fuel condition st = (.ok c, st₁))
    (ht : isTruthy c = true)
    (hb : execStmt fuel body st₁ = (.error (.brk t m), st₂)) :
    execWhile (fuel + 1) condition body st = (.ok (), st₂) := by
  show projUnit (wrapU (stepWhile (interpGo fuel) condition body st)) = _
  rw [projUnit_wrapU]
  unfold stepWhile
  rw [show projVal (interpGo fuel (.exprJ condition) st)
        = evalExpr fuel condition st from rfl, hc]
  simp only [ht, if_true]
  rw [show projUnit (interpGo fuel (.stmtJ body) st₁)
        = execStmt fuel body st₁ from rfl, hb]

/-- `execStmts` on an appended list stops at the first exception: the
second list contributes nothing once the first has thrown. -/
theorem execStmts_append_error (ss₁ : List Stmt) :
    ∀ (fuel : Nat) (ss₂ : List Stmt) (st : LoxState) (e : Exc) (st₁ : LoxState),
      execStmts fuel ss₁ st = (.error e, st₁) →
      execStmts fuel (ss₁ ++ ss₂) st = (.error e, st₁) := by
  induction ss₁ with
  | nil =>
    intro fuel ss₂ st e st₁ h
    cases fuel with
    | zero =>
      rw [execStmts_zero] at h ⊢
      exact h
    | succ n =>
      rw [execStmts_succ_nil] at h
      exact absurd (congrArg Prod.fst h) (by simp)
  | cons s rest ih =>
    intro fuel ss₂ st e st₁ h
    cases fuel with
    | zero =>
      rw [execStmts_zero] at h ⊢
      exact h
    | succ n =>
      rcases hs : execStmt n s st with ⟨r, st₂⟩
      cases r with
      | error err =>
        rw [execStmts_succ_cons_err n s rest st err st₂ hs] at h
        rw [show s :: rest ++ ss₂ = s :: (rest ++ ss₂) from rfl,
            execStmts_succ_cons_err n s (rest ++ ss₂) st err st₂ hs]
        exact h
      | ok u =>
        rw [execStmts_succ_cons_ok n s rest st u st₂ hs] at h
        rw [show s :: rest ++ ss₂ = s :: (rest ++ ss₂) from rfl,
            execStmts_succ_cons_ok n s (rest ++ ss₂) st u st₂ hs]
        exact ih n ss₂ st₂ e st₁ h

/-! ## Environment-chain lemmas (for C5) -/

theorem lookupA_insertA_self {V : Type} (l : List (String × V)) (k : String)
    (v : V) : lookupA (insertA l k v) k = some v := by
  induction l with
  | nil => simp [insertA, lookupA]
  | cons kv rest ih =>
    by_cases h : kv.1 = k
    · simp [insertA, h, lookupA]
    · simp [insertA, h, lookupA, ih]

/-- The semantic reading of the executable store check. -/
theorem wfStoreB_lt {st : LoxState} (hwf : wfStoreB st = true) {i j : Nat}
    {f : Frame} (hf : st.frame i = some f) (he : f.enclosing = some j) :
    j < i := by
  have hi : i < st.envs.length := by
    by_contra hge
    have : st.envs[i]? = Option.none := by
      simp [List.getElem?_eq_none (Nat.le_of_not_lt hge)]
    rw [LoxState.frame, this] at hf
    exact Option.noConfusion hf
  have := (List.all_eq_true.mp hwf) i (by simp [List.mem_range, hi])
  rw [LoxState.frame] at hf
  rw [hf] at this
  simp only [he] at this
  exact of_decide_eq_true this

/-- `envGet` walking, characterized over the materialized chain: it
returns `v` exactly when the nearest frame in the chain binding the name
binds it to `v`. -/
theorem envGet_ok_iff (st : LoxState) (name : Token) :
    ∀ (fuel i : Nat) (v : LoxValue),
      envGet st fuel i name = .ok v ↔
        (chainFrames st fuel i).findSome?
          (fun f => lookupA f.values name.lexeme) = some v := by
  intro fuel
  induction fuel with
  | zero => intro i v; simp [envGet, chainFrames, List.findSome?]
  | succ n ih =>
    intro i v
    rw [envGet, chainFrames]
    cases hf : st.frame i with
    | none => simp [List.findSome?]
    | some f =>
      cases hl : lookupA f.values name.lexeme with
      | some w => simp [List.findSome?_cons, hl]
      | none =>
        cases he : f.enclosing with
        | some j => simpa [List.findSome?_cons, hl, he] using ih j v
        | none => simp [List.findSome?_cons, hl, he, List.findSome?]

/-- `envGet` fails with the `Undefined variable` error exactly when no
frame in the chain binds the name (given enough fuel over a well-formed
store, so that the walk reaches the root). -/
theorem envGet_err_iff (st : LoxState) (name : Token)
    (hwf : wfStoreB st = true) :
    ∀ (fuel i : Nat), i < st.envs.length → i < fuel →
      (envGet st fuel i name =
        .error (.rte name ("Undefined variable '" ++ name.lexeme ++ "'.")) ↔
       ∀ f ∈ chainFrames st fuel i, lookupA f.values name.lexeme = Option.none) := by
  intro fuel
  induction fuel with
  | zero => intro i _ h; exact absurd h (Nat.not_lt_zero i)
  | succ n ih =>
    intro i hilen hifuel
    rw [envGet, chainFrames]
    have hf : ∃ f, st.frame i = some f := by
      rw [LoxState.frame]
      exact ⟨st.envs[i], List.getElem?_eq_getElem hilen⟩
    obtain ⟨f, hf⟩ := hf
    rw [hf]
    cases hl : lookupA f.values name.lexeme with
    | some w => simp [hl]
    | none =>
      cases he : f.enclosing with
      | some j =>
        have hji : j < i := wfStoreB_lt hwf hf he
        have hjlen : j < st.envs.length := Nat.lt_trans hji hilen
        have hjn : j < n := Nat.lt_of_lt_of_le hji (Nat.lt_succ_iff.mp hifuel)
        simpa [hl, he] using ih j hjlen hjn
      | none => simp [hl, he]

/-- `envAssign` walks exactly like `envGet`: it throws the same error on a
miss and succeeds exactly when the walk finds a binding. -/
theorem envAssign_result_matches_get (st : LoxState) (name : Token)
    (v : LoxValue) :
    ∀ (fuel i : Nat),
      (envAssign st fuel i name v).1 =
        (envGet st fuel i name).map (fun _ => ()) := by
  intro fuel
  induction fuel with
  | zero => intro i; rfl
  | succ n ih =>
    intro i
    rw [envAssign, envGet]
    cases hf : st.frame i with
    | none => simp [Except.map]
    | some f =>
      cases hl : lookupA f.values name.lexeme with
      | some w => simp [hl, Except.map]
      | none =>
        cases he : f.enclosing with
        | some j => simpa [hl, he] using ih j
        | none => simp [hl, he, Except.map]

/-- When the walk finds a binding, `envAssign` overwrites exactly that
binding: the new state is the old one with the found frame's map updated
in place. -/
theorem envAssign_overwrites_found (st : LoxState) (name : Token)
    (v : LoxValue) :
    ∀ (fuel i : Nat) (w : LoxValue),
      envGet st fuel i name = .ok w →
      ∃ (j : Nat) (fj : Frame),
        st.frame j = some fj ∧
        lookupA fj.values name.lexeme = some w ∧
        envAssign st fuel i name v =
          (.ok (), st.setFrame j
            { fj with values := insertA fj.values name.lexeme v }) := by
  intro fuel
  induction fuel with
  | zero => intro i w h; exact absurd h (by simp [envGet])
  | succ n ih =>
    intro i w h
    rw [envAssign]
    rw [envGet] at h
    cases hf : st.frame i with
    | none => simp [hf] at h
    | some f =>
      simp only [hf] at h ⊢
      cases hl : lookupA f.values name.lexeme with
      | some u =>
        simp only [hl] at h ⊢
        obtain rfl : u = w := by simpa using h
        exact ⟨i, f, hf, hl, rfl⟩
      | none =>
        simp only [hl] at h ⊢
        cases he : f.enclosing with
        | some j =>
          simp only [he] at h ⊢
          exact ih j w h
        | none => simp [he] at h

/-! ## Claim theorems -/

/-- **C4**: executing a block leaves the interpreter's current-environment
pointer equal to its value before the block on every exit path — the
result component is arbitrary, so normal completion and exits via the
`RuntimeError`, `Return` and `Break` signals are all covered, both for
`executeBlock` itself and for `visitBlockStmt` (which allocates the child
environment). -/
theorem c4_executeBlock_restores_environment :
    ∀ (fuel : Nat) (statements : List Stmt) (envId : Nat) (st : LoxState),
      ((execBlockIn fuel statements envId st).2).environment = st.environment ∧
      ((execStmt fuel (Stmt.blockS statements) st).2).environment = st.environment := by
  have hA : ∀ (fuel : Nat) (ss : List Stmt) (envId : Nat) (st : LoxState),
      ((execBlockIn fuel ss envId st).2).environment = st.environment := by
    intro fuel ss envId st
    cases fuel with
    | zero => rfl
    | succ n =>
      rcases h : execStmts n ss { st with environment := envId } with ⟨r, st₁⟩
      rw [execBlockIn_succ n ss envId st r st₁ h]
  intro fuel statements envId st
  refine ⟨hA fuel statements envId st, ?_⟩
  cases fuel with
  | zero => rfl
  | succ n =>
    have hunf : execStmt (n + 1) (Stmt.blockS statements) st
        = execBlockIn n statements
            (st.allocEnv { values := [], enclosing := some st.environment }).1
            (st.allocEnv { values := [], enclosing := some st.environment }).2 := by
      show projUnit (wrapU (stepStmt (interpGo n) (Stmt.blockS statements) st)) = _
      rw [projUnit_wrapU]
      rfl
    rw [hunf, hA]
    rfl

/-- **C5**: `Environment.get` returns the value bound in the current scope
if present, otherwise recurses outward, and raises the
`Undefined variable` runtime error exactly when no scope in the chain
binds the name; `Environment.assign` performs the same walk (same success
and same error) but overwrites the binding it finds in place. -/
theorem c5_environment_get_assign_walk_outward
    (st : LoxState) (name : Token) (v : LoxValue) (fuel i : Nat)
    (hwf : wfStoreB st = true) (hlen : i < st.envs.length) (hfuel : i < fuel) :
    (∀ w, envGet st fuel i name = .ok w ↔
       (chainFrames st fuel i).findSome?
         (fun f => lookupA f.values name.lexeme) = some w) ∧
    (envGet st fuel i name =
        .error (.rte name ("Undefined variable '" ++ name.lexeme ++ "'.")) ↔
      ∀ f ∈ chainFrames st fuel i, lookupA f.values name.lexeme = Option.none) ∧
    ((envAssign st fuel i name v).1 = (envGet st fuel i name).map (fun _ => ())) ∧
    (∀ w, envGet st fuel i name = .ok w →
      ∃ (j : Nat) (fj : Frame),
        st.frame j = some fj ∧
        lookupA fj.values name.lexeme = some w ∧
        envAssign st fuel i name v =
          (.ok (), st.setFrame j
            { fj with values := insertA fj.values name.lexeme v })) :=
  ⟨fun w => envGet_ok_iff st name fuel i w,
   envGet_err_iff st name hwf fuel i hlen hfuel,
   envAssign_result_matches_get st name v fuel i,
   fun w => envAssign_overwrites_found st name v fuel i w⟩

/-- Witness for C5 at a concrete two-frame store: reading `x` from the
inner frame walks outward to frame 0 and finds 1. -/
theorem c5_environment_get_assign_walk_outward_witness :
    wfStoreB c5Store = true ∧ 1 < c5Store.envs.length ∧ (1 : Nat) < 3 ∧
    envGet c5Store 3 1 (mkTok .identifier "x" 1) = .ok (.num 1) := by
  refine ⟨by rfl, by decide, by decide, ?_⟩
  exact ((c5_environment_get_assign_walk_outward c5Store
      (mkTok .identifier "x" 1) (.num 9) 3 1 (by rfl) (by decide)
      (by decide)).1 (.num 1)).mpr (by rfl)

/-- **C7**: the `+` case of `visitBinaryExpr` — numeric sum on two
numbers; concatenation on two strings; stringify-and-concatenate when
exactly one operand is a string; the
`Operands must be two numbers or two strings` runtime error otherwise (in
particular on two booleans, or a number and nil).  The source message
carries no trailing period. -/
theorem c7_plus_operator_semantics (st : LoxState) (tok : Token)
    (htype : tok.type = TT.plus) :
    (∀ a b : LNum, applyBinary st tok (.num a) (.num b) = .ok (.num (LNum.add a b))) ∧
    (∀ s₁ s₂ : String, applyBinary st tok (.str s₁) (.str s₂) = .ok (.str (s₁ ++ s₂))) ∧
    (∀ l r : LoxValue,
      ((l.isStr = true ∧ r.isStr = false) ∨ (l.isStr = false ∧ r.isStr = true)) →
      applyBinary st tok l r =
        (stringify st l).bind fun a =>
          (stringify st r).map fun b => .str (a ++ b)) ∧
    (∀ l r : LoxValue, l.isStr = false → r.isStr = false →
      (∀ a b : LNum, ¬(l = .num a ∧ r = .num b)) →
      applyBinary st tok l r =
        .error (.rte tok "Operands must be two numbers or two strings")) ∧
    (∀ b₁ b₂ : Bool, applyBinary st tok (.boolean b₁) (.boolean b₂) =
        .error (.rte tok "Operands must be two numbers or two strings")) ∧
    (∀ a : LNum, applyBinary st tok (.num a) .nil =
        .error (.rte tok "Operands must be two numbers or two strings")) := by
  refine ⟨?_, ?_, ?_, ?_, ?_, ?_⟩
  · intro a b
    simp [applyBinary, htype]
  · intro s₁ s₂
    simp [applyBinary, htype, LoxValue.isStr, stringify, valueToString,
      Except.bind, Except.map]
  · intro l r h
    rcases h with ⟨h₁, h₂⟩ | ⟨h₁, h₂⟩ <;>
      cases l <;> cases r <;>
        simp_all [applyBinary, htype, LoxValue.isStr]
  · intro l r h₁ h₂ hnn
    cases l <;> cases r <;>
      simp_all [applyBinary, htype, LoxValue.isStr]
  · intro b₁ b₂
    simp [applyBinary, htype, LoxValue.isStr]
  · intro a
    simp [applyBinary, htype, LoxValue.isStr]

/-- Witness for C7 at concrete operands. -/
theorem c7_plus_operator_semantics_witness :
    (mkTok .plus "+" 1).type = TT.plus ∧
    applyBinary initState (mkTok .plus "+" 1) (.num 1) (.num 2) = .ok (.num 3) ∧
    applyBinary initState (mkTok .plus "+" 1) (.str "a") (.num 2) =
      .ok (.str "a2") ∧
    applyBinary initState (mkTok .plus "+" 1) (.boolean true) (.boolean false) =
      .error (.rte (mkTok .plus "+" 1)
        "Operands must be two numbers or two strings") := by
  refine ⟨rfl, ?_, ?_, ?_⟩
  · have h := (c7_plus_operator_semantics initState (mkTok .plus "+" 1) rfl).1 1 2
    rw [h]; rfl
  · have h := ((c7_plus_operator_semantics initState (mkTok .plus "+" 1) rfl).2.2.1)
      (.str "a") (.num 2) (Or.inl ⟨rfl, rfl⟩)
    rw [h]; rfl
  · exact ((c7_plus_operator_semantics initState (mkTok .plus "+" 1) rfl).2.2.2.2.1)
      true false

/-- **C1 (code bug)**: for the program
`{ let a = (fn() { return a; })(); echo type(a); }` the resolver reports
no error (and no diagnostic at all) and records depth 1 for the `a` read
inside the function body; yet at run time, when that reference is
evaluated during `a`'s own initializer, the environment exactly 1 hop
outward — the block frame — holds no binding for `a` (its `define` has not
run yet), so `getAt` misses and produces the host's `undefined`; the
program then completes with `a` bound to `undefined` in the block frame
and prints `undefined`, a type tag outside the documented Lox value
universe. -/
theorem c1_resolved_depth_misses_at_runtime :
    (resolveStmts 100 selfInitProg initRState).hadError = false ∧
    (resolveStmts 100 selfInitProg initRState).out = [] ∧
    lookupNat (resolveStmts 100 selfInitProg initRState).locals 1 = some 1 ∧
    (runFile 100 selfInitProg).st.out = ["undefined"] ∧
    (runFile 100 selfInitProg).uncaught = Option.none ∧
    (runFile 100 selfInitProg).st.hadRuntimeError = false ∧
    (runFile 100 selfInitProg).st.envs[1]? =
      some ⟨[("a", LoxValue.undefinedV)], some 0⟩ :=
  ⟨by rfl, by rfl, by rfl, by rfl, by rfl, by rfl, by rfl⟩

/-- **C2 counterexample**: running the S4 program, the output is exactly
`3` followed by the division-by-zero report; `after` is never printed,
refuting the claim that subsequent top-level statements still execute
after a runtime error. -/
theorem c2_after_never_printed :
    (runFile 100 s4Prog).st.out =
      ["3", "Division by zero is not allowed. \n[line 4]"] ∧
    "after" ∉ (runFile 100 s4Prog).st.out := by
  refine ⟨by rfl, ?_⟩
  rw [show (runFile 100 s4Prog).st.out =
    ["3", "Division by zero is not allowed. \n[line 4]"] from rfl]
  decide

/-- **C2 (amended)**: in file mode a runtime error in a top-level
statement is caught by the single try/catch wrapped around the whole
interpret loop: it is reported, `had_runtime_error` is set (exit code 70),
and the entire remaining program is abandoned — no subsequent top-level
statement executes.  For the S4 program the output is `3` followed by the
division-by-zero report and nothing more, with exit code 70. -/
theorem c2_runtime_error_abandons_program :
    (∀ (fuel : Nat) (ss₁ ss₂ : List Stmt) (repl : Bool) (st : LoxState)
       (tok : Token) (msg : String) (st₁ : LoxState),
       execStmts fuel ss₁ { st with repl := repl } = (.error (.rte tok msg), st₁) →
       interpret fuel (ss₁ ++ ss₂) repl st =
         (loxRuntimeError st₁ tok msg, Option.none)) ∧
    (runFile 100 s4Prog).st.out =
      ["3", "Division by zero is not allowed. \n[line 4]"] ∧
    (runFile 100 s4Prog).st.hadRuntimeError = true ∧
    (runFile 100 s4Prog).uncaught = Option.none ∧
    exitCode (runFile 100 s4Prog) = 70 := by
  refine ⟨?_, by rfl, by rfl, by rfl, by rfl⟩
  intro fuel ss₁ ss₂ repl st tok msg st₁ h
  have happ := execStmts_append_error ss₁ fuel ss₂ { st with repl := repl }
    (.rte tok msg) st₁ h
  simp only [interpret]
  rw [happ]

set_option maxRecDepth 10000 in
/-- Witness for the general part of the amended C2: `echo 1 / 0;` followed
by `echo "after";` — the error is reported and the second statement never
runs. -/
theorem c2_runtime_error_abandons_program_witness :
    interpret 100
        ([Stmt.echoS (.binaryE (.literalE (.num 1)) (mkTok .slash "/" 4)
            (.literalE (.num 0)))] ++
         [Stmt.echoS (.literalE (.str "after"))]) false initState =
      (loxRuntimeError { initState with repl := false } (mkTok .slash "/" 4)
        "Division by zero is not allowed.", Option.none) :=
  (c2_runtime_error_abandons_program).1 100
    [Stmt.echoS (.binaryE (.literalE (.num 1)) (mkTok .slash "/" 4)
      (.literalE (.num 0)))]
    [Stmt.echoS (.literalE (.str "after"))] false initState
    (mkTok .slash "/" 4) "Division by zero is not allowed."
    { initState with repl := false } (by rfl)

/-- **C3 (code bug)**: for the S5 program
(`class Box { init(v) { this.v = v; } } let b = Box(42); echo b.v;
echo type(b);`), the resolver accepts the program and the constructor does
store 42 in the instance's field map (`LoxInstance.get` on `v` returns
42), but `GetExpr.accept` (expr.ts:150) drops the visitor's result — it
lacks `return` — so evaluating `b.v` yields the host's `undefined`;
`echo b.v` then crashes with a host `TypeError` that nothing catches: the
program prints nothing (neither `42` nor `object`) and
`had_runtime_error` is never set. -/
theorem c3_property_read_drops_value :
    (resolveStmts 100 s5Prog initRState).hadError = false ∧
    (runFile 100 s5Prog).st.out = [] ∧
    (runFile 100 s5Prog).uncaught =
      some (.hostErr
        "TypeError: Cannot read properties of undefined (reading 'toString')") ∧
    (runFile 100 s5Prog).st.hadRuntimeError = false ∧
    ((runFile 100 s5Prog).st.insts[0]?).map (fun d => lookupA d.fields "v") =
      some (some (.num 42)) ∧
    (instanceGet (runFile 100 s5Prog).st 0 (mkTok .identifier "v" 3)).1 =
      .ok (.num 42) ∧
    (evalExpr 20
      (.getE (.varE 4 (mkTok .identifier "b" 3)) (mkTok .identifier "v" 3))
      (runFile 100 s5Prog).st).1 = .ok .undefinedV :=
  ⟨by rfl, by rfl, by rfl, by rfl, by rfl, by rfl, by rfl⟩

/-- **C6**: a class's arity is its `init`'s arity (0 when there is none);
calling a class allocates a fresh instance (the next store slot, empty
fields); with an `init` (own or inherited) the call invokes it bound to
the new instance with the supplied arguments and returns the instance
regardless of the value that invocation produced; and a bare `return;`
inside `init` is legal — concretely, `bareReturnInitProg` resolves without
error, the constructor stores 42 and returns the instance, and the
program prints `object`. -/
theorem c6_class_call_semantics :
    (∀ c : ClassData, findMethod c "init" = Option.none → classArity c = 0) ∧
    (∀ (c : ClassData) (f : FnData), findMethod c "init" = some f →
       classArity c = f.params.length) ∧
    (∀ (fuel : Nat) (c : ClassData) (args : List LoxValue) (st : LoxState),
       findMethod c "init" = Option.none →
       classCall (fuel + 1) c args st =
         (.ok (.instV st.insts.length), (st.allocInst ⟨c, []⟩).2)) ∧
    (∀ (fuel : Nat) (c : ClassData) (args : List LoxValue) (st : LoxState)
       (f : FnData) (v : LoxValue) (st₃ : LoxState),
       findMethod c "init" = some f →
       functionCall fuel
         (bindFn (st.allocInst ⟨c, []⟩).2 f (st.allocInst ⟨c, []⟩).1).1 args
         (bindFn (st.allocInst ⟨c, []⟩).2 f (st.allocInst ⟨c, []⟩).1).2
         = (.ok v, st₃) →
       classCall (fuel + 1) c args st = (.ok (.instV st.insts.length), st₃)) ∧
    (resolveStmts 100 bareReturnInitProg initRState).hadError = false ∧
    (runFile 100 bareReturnInitProg).st.out = ["object"] ∧
    (runFile 100 bareReturnInitProg).uncaught = Option.none ∧
    ((runFile 100 bareReturnInitProg).st.insts[0]?).map
      (fun d => lookupA d.fields "v") = some (some (.num 42)) := by
  refine ⟨?_, ?_, ?_, ?_, by rfl, by rfl, by rfl, by rfl⟩
  · intro c h; simp [classArity, h]
  · intro c f h; simp [classArity, h]
  · intro fuel c args st h; exact classCall_succ_noinit fuel c args st h
  · intro fuel c args st f v st₃ hinit h
    exact classCall_succ_init_ok fuel c args st f v st₃ hinit h

/-- Witness for C6 at two concrete classes: one without `init` (arity 0,
fresh empty instance) and one with a nullary `init` (the instance is
returned after the bound `init` ran). -/
theorem c6_class_call_semantics_witness :
    classArity cNoInit = 0 ∧
    classCall 10 cNoInit [] initState =
      (.ok (.instV 0), (initState.allocInst ⟨cNoInit, []⟩).2) ∧
    classArity cWithInit = 0 ∧
    classCall 10 cWithInit [] initState =
      (.ok (.instV 0), cWithInitCallState) := by
  refine ⟨?_, ?_, ?_, ?_⟩
  · exact (c6_class_call_semantics).1 cNoInit (by rfl)
  · exact (c6_class_call_semantics).2.2.1 9 cNoInit [] initState (by rfl)
  · exact (c6_class_call_semantics).2.1 cWithInit ⟨some "init", [], [], 0, true⟩ (by rfl)
  · exact (c6_class_call_semantics).2.2.2.1 9 cWithInit [] initState
      ⟨some "init", [], [], 0, true⟩ (.instV 0) cWithInitCallState
      (by rfl) (by rfl)

/-- **C8 counterexample**: lexing the unexpected character `&` emits a
console message, yet the driver's `had_error` flag is still `false`
afterwards — the lexer never calls the diagnostics sink, refuting the
claim that such input sets `had_error` (and hence exit code 65 on its
account). -/
theorem c8_lexer_bypasses_sink_counterexample :
    lexPhase "&" false =
      ⟨[⟨.eof, "", .none, 1, 0⟩], ["Unexpected character: &"], false⟩ := by
  rfl

/-- A list ending in an appended singleton has that element as its last. -/
theorem getLast_append_singleton {α : Type} (l : List α) (a : α) :
    (l ++ [a]).getLast? = some a := by
  induction l with
  | nil => rfl
  | cons x xs ih =>
    cases xs with
    | nil => rfl
    | cons y ys =>
      simp only [List.cons_append] at ih ⊢
      rw [List.getLast?_cons_cons]
      simpa using ih

/-- **C8 (amended)**: the lexer prints its errors directly to the console
without informing the diagnostics sink — `had_error` is unchanged by the
lex stage for every source — while lexing continues past the error and the
`EOF` token is always appended; concretely, `let x = 1;&\necho x;` lexes
to the full token sequence around the bad character with one console
message, and an unterminated string stops gracefully with only `EOF`. -/
theorem c8_lexer_reports_to_console_only :
    (∀ (source : String) (h₀ : Bool), (lexPhase source h₀).hadError = h₀) ∧
    (∀ source : String,
       ((lex source).tokens.getLast?).map Token.type = some TT.eof) ∧
    (lex "let x = 1;&\necho x;").msgs = ["Unexpected character: &"] ∧
    (lex "let x = 1;&\necho x;").tokens.map Token.type =
      [TT.kwLet, TT.identifier, TT.equal, TT.numberLit, TT.semicolon,
       TT.kwEcho, TT.identifier, TT.semicolon, TT.eof] ∧
    (lex "\"abc").msgs = ["Unterminated string"] ∧
    (lex "\"abc").tokens.map Token.type = [TT.eof] := by
  refine ⟨fun s h => rfl, ?_, by rfl, by rfl, by rfl, by rfl⟩
  intro source
  rw [show (lex source).tokens
        = (lexLoop (source.toList.length + 1)
            { src := source.toList, tokens := [], start := 0, cursor := 0,
              line := 1, msgs := [] }).tokens ++
          [⟨.eof, "", .none,
            (lexLoop (source.toList.length + 1)
              { src := source.toList, tokens := [], start := 0, cursor := 0,
                line := 1, msgs := [] }).line, 0⟩] from rfl]
  rw [getLast_append_singleton]
  rfl

/-- **C9 counterexample**: running `len(5);`, the thrown value is a plain
host `Error`, not a `RuntimeError` — `interpret` rethrows it uncaught,
nothing is printed, and `had_runtime_error` stays `false`, refuting the
claim that the failure is reported like any other runtime error. -/
theorem c9_len_error_not_reported_counterexample :
    (runFile 100 lenMisuseProg).uncaught =
      some (.hostErr "'len()' expects a string") ∧
    (runFile 100 lenMisuseProg).st.hadRuntimeError = false ∧
    (runFile 100 lenMisuseProg).st.out = [] :=
  ⟨by rfl, by rfl, by rfl⟩

/-- **C9 (amended)**: `len(v)` returns the character count when `v` is a
string (0 for the empty string); for any non-string it throws the plain
host `Error` `'len()' expects a string`, which the interpret loop's
`RuntimeError`/`Break` handler does not catch: the exception escapes
`interpret` unreported, and `had_runtime_error` is not set by it. -/
theorem c9_len_throws_plain_host_error :
    (∀ s : String, lenNative (.str s) = .ok (.num (LNum.ofInt s.length))) ∧
    lenNative (.str "") = .ok (.num (LNum.ofInt 0)) ∧
    (∀ v : LoxValue, v.isStr = false →
       lenNative v = .error (.hostErr "'len()' expects a string")) ∧
    (∀ (fuel : Nat) (stmts : List Stmt) (repl : Bool) (st st₁ : LoxState)
       (m : String),
       execStmts fuel stmts { st with repl := repl } =
         (.error (.hostErr m), st₁) →
       interpret fuel stmts repl st = (st₁, some (.hostErr m))) := by
  refine ⟨fun s => rfl, rfl, ?_, ?_⟩
  · intro v h
    cases v <;> simp_all [lenNative, LoxValue.isStr]
  · intro fuel stmts repl st st₁ m h
    simp only [interpret]
    rw [h]

/-- Witness for C9: `len` applied to the number 5, and the `len(5);`
program's host error escaping `interpret` with no report. -/
theorem c9_len_throws_plain_host_error_witness :
    lenNative (.num 5) = .error (.hostErr "'len()' expects a string") ∧
    interpret 100 lenMisuseProg false initState =
      ({ initState with repl := false },
       some (.hostErr "'len()' expects a string")) := by
  refine ⟨?_, ?_⟩
  · exact (c9_len_throws_plain_host_error).2.2.1 (.num 5) (by rfl)
  · exact (c9_len_throws_plain_host_error).2.2.2 100 lenMisuseProg false
      initState { initState with repl := false } "'len()' expects a string"
      (by rfl)

/-- **C10**: the `LoxFunction.call` boundary catches only `Return`, so a
`Break` thrown in a function body with no enclosing loop propagates out of
the call; when the call site sits inside a loop of the caller, the
caller's `while` catches the `Break` and terminates normally — and the
runtime error report `Break statement used outside of loop.` never
appears.  Concretely, `fn f() { break; } while (true) { f(); }` resolves
cleanly, terminates normally, prints nothing, and exits 0. -/
theorem c10_break_escapes_function_into_callers_loop :
    (∀ (fuel : Nat) (f : FnData) (args : List LoxValue) (st : LoxState)
       (t : Token) (m : String) (st₂ : LoxState),
       execBlockIn fuel f.body (fnCallSetup st f args).1
         (fnCallSetup st f args).2 = (.error (.brk t m), st₂) →
       functionCall (fuel + 1) f args st = (.error (.brk t m), st₂)) ∧
    (∀ (fuel : Nat) (condition : Expr) (body : Stmt) (st : LoxState)
       (c : LoxValue) (st₁ : LoxState) (t : Token) (m : String)
       (st₂ : LoxState),
       evalExpr fuel condition st = (.ok c, st₁) → isTruthy c = true →
       execStmt fuel body st₁ = (.error (.brk t m), st₂) →
       execWhile (fuel + 1) condition body st = (.ok (), st₂)) ∧
    (resolveStmts 100 breakAcrossCallProg initRState).hadError = false ∧
    (runFile 100 breakAcrossCallProg).uncaught = Option.none ∧
    (runFile 100 breakAcrossCallProg).st.out = [] ∧
    (runFile 100 breakAcrossCallProg).st.hadRuntimeError = false ∧
    exitCode (runFile 100 breakAcrossCallProg) = 0 := by
  refine ⟨?_, ?_, by rfl, by rfl, by rfl, by rfl, by rfl⟩
  · intro fuel f args st t m st₂ h
    exact functionCall_succ_reraise fuel f args st (.brk t m) st₂ h
      (fun v => by simp)
  · intro fuel condition body st c st₁ t m st₂ h₁ h₂ h₃
    exact execWhile_succ_caught_break fuel condition body st c st₁ t m st₂
      h₁ h₂ h₃

/-- Witness for C10: calling the `break`-only function propagates the
`Break` out of the call, and a `while (true)` whose body throws `Break`
completes normally. -/
theorem c10_break_escapes_function_into_callers_loop_witness :
    functionCall 11 fBreakData [] initState =
      (.error (.brk (mkTok .kwBreak "break" 1)
        "Break statement used outside of loop."),
       { initState with envs := initState.envs ++ [⟨[], some 0⟩] }) ∧
    execWhile 11 (.literalE (.bool true)) (.breakS (mkTok .kwBreak "break" 1))
        initState =
      (.ok (), initState) := by
  refine ⟨?_, ?_⟩
  · exact (c10_break_escapes_function_into_callers_loop).1 10 fBreakData []
      initState (mkTok .kwBreak "break" 1)
      "Break statement used outside of loop."
      { initState with envs := initState.envs ++ [⟨[], some 0⟩] } (by rfl)
  · exact (c10_break_escapes_function_into_callers_loop).2.1 10
      (.literalE (.bool true)) (.breakS (mkTok .kwBreak "break" 1)) initState
      (.boolean true) initState (mkTok .kwBreak "break" 1)
      "Break statement used outside of loop." initState (by rfl) (by rfl)
      (by rfl)

end LoxTs
